import Mathlib

/-!
Verification of the ArchCrafter2 backend services.

This file gives a shallow embedding, in Lean 4, of the parts of the
ArchCrafter2 code base that its specification makes claims about:

* `backend/settings.py` (`SettingsStore.load` / `save` / `get_section`),
* `backend/wallpapers.py` (`WallpaperService`: palette extraction, the
  two-tier palette cache, thumb-size accessors, color-theory swatches),
* `backend/gtk_themes.py` (`GtkThemeService`: theme-metadata cache,
  light/dark classification, `apply_theme`),
* `backend/interface_themes.py` (`apply_icon_theme` / `apply_cursor_theme`),
* `backend/themes.py` (`WindowThemeService.apply_theme` over Openbox rc.xml),
* the color helpers in `main.py` (`_unique_colors`,
  `_build_color_theory_colors`, `colorsys.rgb_to_hsv` / `hsv_to_rgb`).

Modelling conventions:

* Python `float` arithmetic is modelled as exact fraction arithmetic over an
  unreduced numerator/denominator pair (`Frac`), so every operation is
  kernel-computable; IEEE rounding is not modelled.
* Filesystem state is passed explicitly (association lists from paths to
  contents); library calls (`stat`, GdkPixbuf image loading, CSS regex
  extraction) are supplied as explicit inputs describing their results.
* Python exceptions are modelled with `Except`/`Option`; a `try`/`except`
  block becomes a `match` on the outcome.
-/

/-- An exact fraction with an unreduced numerator/denominator pair.
Every constructor used in this file keeps `den > 0`, and all comparison
operations below are stated for that representation. -/
structure Frac where
  num : Int
  den : Int
  deriving Repr, DecidableEq

namespace Frac

def ofInt (n : Int) : Frac := ⟨n, 1⟩

def ofNat (n : Nat) : Frac := ⟨(n : Int), 1⟩

def add (a b : Frac) : Frac := ⟨a.num * b.den + b.num * a.den, a.den * b.den⟩

def sub (a b : Frac) : Frac := ⟨a.num * b.den - b.num * a.den, a.den * b.den⟩

def mul (a b : Frac) : Frac := ⟨a.num * b.num, a.den * b.den⟩

/-- Division; division by an (unreachable in the translated code paths)
zero value is mapped to `0`. The result keeps a positive denominator. -/
def div (a b : Frac) : Frac :=
  if b.num = 0 then ⟨0, 1⟩
  else if b.num < 0 then ⟨a.num * (-b.den), a.den * (-b.num)⟩
  else ⟨a.num * b.den, a.den * b.num⟩

def neg (a : Frac) : Frac := ⟨-a.num, a.den⟩

/-- Value-level strict order (valid for positive denominators). -/
def Lt (a b : Frac) : Prop := a.num * b.den < b.num * a.den

/-- Value-level non-strict order (valid for positive denominators). -/
def Le (a b : Frac) : Prop := a.num * b.den ≤ b.num * a.den

/-- Value-level equality, the model of Python `==` on floats. -/
def Eqv (a b : Frac) : Prop := a.num * b.den = b.num * a.den

instance (a b : Frac) : Decidable (Frac.Lt a b) := Int.decLt _ _
instance (a b : Frac) : Decidable (Frac.Le a b) := Int.decLe _ _
instance (a b : Frac) : Decidable (Frac.Eqv a b) := Int.instDecidableEq _ _

def blt (a b : Frac) : Bool := decide (Frac.Lt a b)
def ble (a b : Frac) : Bool := decide (Frac.Le a b)
def beqv (a b : Frac) : Bool := decide (Frac.Eqv a b)

/-- Python `max` on two floats (returns the first argument on ties). -/
def fmax (a b : Frac) : Frac := if Frac.blt a b then b else a

/-- Python `min` on two floats (returns the first argument on ties). -/
def fmin (a b : Frac) : Frac := if Frac.blt b a then b else a

/-- Mathematical floor, for a representation with a positive denominator
(the `Int` division of this toolchain rounds down for positive divisors). -/
def floor (a : Frac) : Int := a.num / a.den

/-- Python `int(x)`: truncation toward zero. -/
def trunc (a : Frac) : Int :=
  if a.num < 0 then -((-a.num) / a.den) else a.num / a.den

/-- Python `x % 1.0` for floats: `x - floor x`, always in `[0, 1)`. -/
def mod1 (a : Frac) : Frac := Frac.sub a (Frac.ofInt (Frac.floor a))

/-- Python `round(x)` on a non-negative value: round half to even. -/
def pyRound (a : Frac) : Int :=
  let n : Int := (2 * a.num + a.den) / (2 * a.den)
  if (2 * a.num + a.den) % (2 * a.den) = 0 then
    -- `a + 1/2` is an integer, so `a` is an exact half: pick the even side.
    (if n % 2 = 0 then n else n - 1)
  else n

end Frac

/-- Clamp an integer into `[lo, hi]`, as Python `max(lo, min(hi, x))`. -/
def pyClampInt (lo hi x : Int) : Int := max lo (min hi x)

/-- Python `max(lo, min(hi, x))` on floats. -/
def pyClampFrac (lo hi x : Frac) : Frac := Frac.fmax lo (Frac.fmin hi x)

/-- Python slice `l[:k]` for an arbitrary integer `k` (negative indices
count from the end of the list). -/
def pySliceTo (k : Int) (l : List α) : List α :=
  let idx : Int := if 0 ≤ k then k else k + (l.length : Int)
  l.take (max 0 idx).toNat

/-- ASCII lower-casing of one character, the relevant fragment of Python
`str.lower` for the names handled here. -/
def pyLowerChar (c : Char) : Char :=
  if 'A' ≤ c ∧ c ≤ 'Z' then Char.ofNat (c.toNat + 32) else c

/-- ASCII upper-casing of one character, the relevant fragment of Python
`str.upper` for the color strings handled here. -/
def pyUpperChar (c : Char) : Char :=
  if 'a' ≤ c ∧ c ≤ 'z' then Char.ofNat (c.toNat - 32) else c

def pyLower (s : String) : String := String.mk (s.toList.map pyLowerChar)

def pyUpper (s : String) : String := String.mk (s.toList.map pyUpperChar)

def isPySpace (c : Char) : Bool :=
  c = ' ' ∨ c = '\t' ∨ c = '\n' ∨ c = '\r' ∨ c = '\x0b' ∨ c = '\x0c'

/-- Python `str.strip()` (whitespace from both ends). -/
def pyStrip (s : String) : String :=
  String.mk (((s.toList.dropWhile isPySpace).reverse.dropWhile isPySpace).reverse)

/-- Python `str.lstrip("#")`: drop every leading `#`. -/
def pyLstripHash (s : String) : String :=
  String.mk (s.toList.dropWhile (· = '#'))

def isHexDigitChar (c : Char) : Bool :=
  ('0' ≤ c ∧ c ≤ '9') ∨ ('a' ≤ c ∧ c ≤ 'f') ∨ ('A' ≤ c ∧ c ≤ 'F')

def hexDigitVal (c : Char) : Nat :=
  if '0' ≤ c ∧ c ≤ '9' then c.toNat - '0'.toNat
  else if 'a' ≤ c ∧ c ≤ 'f' then c.toNat - 'a'.toNat + 10
  else if 'A' ≤ c ∧ c ≤ 'F' then c.toNat - 'A'.toNat + 10
  else 0

def hexDigitsVal (acc : Nat) : List Char → Nat
  | [] => acc
  | c :: cs => hexDigitsVal (acc * 16 + hexDigitVal c) cs

/-- Python `int(s, 16)`: optional surrounding whitespace, an optional sign,
then a non-empty run of hex digits; anything else raises `ValueError`
(modelled as `none`).  (The `0x` prefix form never fits in the two-character
slices this code passes in.) -/
def pyIntHex (s : String) : Option Int :=
  let cs := (s.toList.dropWhile isPySpace).reverse.dropWhile isPySpace |>.reverse
  let (sign, digits) :=
    match cs with
    | '+' :: rest => ((1 : Int), rest)
    | '-' :: rest => ((-1 : Int), rest)
    | rest => ((1 : Int), rest)
  if digits.isEmpty then none
  else if digits.all isHexDigitChar then some (sign * (hexDigitsVal 0 digits : Int))
  else none

def hexDigitChar (n : Nat) : Char :=
  if n < 10 then Char.ofNat ('0'.toNat + n) else Char.ofNat ('a'.toNat + n - 10)

/-- Python `f"{n:02x}"` for `0 ≤ n ≤ 255`. -/
def toHex2 (n : Nat) : List Char := [hexDigitChar (n / 16), hexDigitChar (n % 16)]

/-- Python exception classes observed by the translated code paths. -/
inductive PyErr where
  | attributeError
  | valueError
  deriving Repr, DecidableEq

/-- JSON-shaped Python values, as produced by `json.loads` and stored in a
`SettingsStore` section. -/
inductive JVal where
  | null
  | bool (b : Bool)
  | int (n : Int)
  | float (q : Frac)
  | str (s : String)
  | arr (items : List JVal)
  | obj (fields : List (String × JVal))

/-- Python `dict.get(key)` on an association list (keys are unique in a
Python dict; the first binding wins). -/
def pyDictGet (fields : List (String × JVal)) (key : String) : Option JVal :=
  match fields with
  | [] => none
  | (k, v) :: rest => if k = key then some v else pyDictGet rest key

/-- Python `d[key] = value` on an association list: replace the existing
binding in place, or append a new one. -/
def pyDictSet (fields : List (String × JVal)) (key : String) (value : JVal) :
    List (String × JVal) :=
  match fields with
  | [] => [(key, value)]
  | (k, v) :: rest =>
    if k = key then (k, value) :: rest else (k, v) :: pyDictSet rest key value

/-- `WallpaperService._hex_to_rgb` (backend/wallpapers.py:371):
strip leading `#`, return mid-gray for a length other than 6, otherwise
parse three hex pairs (a malformed pair raises `ValueError` in Python). -/
def hex_to_rgb (color_hex : String) : Except PyErr (Frac × Frac × Frac) :=
  let value := (pyLstripHash color_hex).toList
  if value.length ≠ 6 then .ok (⟨1, 2⟩, ⟨1, 2⟩, ⟨1, 2⟩)
  else
    match pyIntHex (String.mk (value.take 2)),
        pyIntHex (String.mk ((value.drop 2).take 2)),
        pyIntHex (String.mk ((value.drop 4).take 2)) with
    | some r, some g, some b =>
      .ok (Frac.div (Frac.ofInt r) ⟨255, 1⟩,
        Frac.div (Frac.ofInt g) ⟨255, 1⟩,
        Frac.div (Frac.ofInt b) ⟨255, 1⟩)
    | _, _, _ => .error .valueError

/-- `WallpaperService._rgb_to_hex` (backend/wallpapers.py:380):
scale to 0..255, round, clamp, format as `#rrggbb`. -/
def rgb_to_hex (r g b : Frac) : String :=
  let rr := (pyClampInt 0 255 (Frac.pyRound (Frac.mul r ⟨255, 1⟩))).toNat
  let gg := (pyClampInt 0 255 (Frac.pyRound (Frac.mul g ⟨255, 1⟩))).toNat
  let bb := (pyClampInt 0 255 (Frac.pyRound (Frac.mul b ⟨255, 1⟩))).toNat
  String.mk ('#' :: (toHex2 rr ++ toHex2 gg ++ toHex2 bb))

/-- `colorsys.rgb_to_hsv` from the Python standard library. -/
def rgb_to_hsv (r g b : Frac) : Frac × Frac × Frac :=
  let maxc := Frac.fmax (Frac.fmax r g) b
  let minc := Frac.fmin (Frac.fmin r g) b
  let rangec := Frac.sub maxc minc
  let v := maxc
  if Frac.beqv minc maxc then (⟨0, 1⟩, ⟨0, 1⟩, v)
  else
    let s := Frac.div rangec maxc
    let rc := Frac.div (Frac.sub maxc r) rangec
    let gc := Frac.div (Frac.sub maxc g) rangec
    let bc := Frac.div (Frac.sub maxc b) rangec
    let h :=
      if Frac.beqv r maxc then Frac.sub bc gc
      else if Frac.beqv g maxc then Frac.add ⟨2, 1⟩ (Frac.sub rc bc)
      else Frac.add ⟨4, 1⟩ (Frac.sub gc rc)
    (Frac.mod1 (Frac.div h ⟨6, 1⟩), s, v)

/-- `colorsys.hsv_to_rgb` from the Python standard library. -/
def hsv_to_rgb (h s v : Frac) : Frac × Frac × Frac :=
  if Frac.beqv s ⟨0, 1⟩ then (v, v, v)
  else
    let h6 := Frac.mul h ⟨6, 1⟩
    let i0 := Frac.trunc h6
    let f := Frac.sub h6 (Frac.ofInt i0)
    let p := Frac.mul v (Frac.sub ⟨1, 1⟩ s)
    let q := Frac.mul v (Frac.sub ⟨1, 1⟩ (Frac.mul s f))
    let t := Frac.mul v (Frac.sub ⟨1, 1⟩ (Frac.mul s (Frac.sub ⟨1, 1⟩ f)))
    let i := i0 % 6
    if i = 0 then (v, t, p)
    else if i = 1 then (q, v, p)
    else if i = 2 then (p, v, t)
    else if i = 3 then (p, q, v)
    else if i = 4 then (t, p, v)
    else (v, p, q)

def startsWithHash (s : String) : Bool :=
  match s.toList with
  | '#' :: _ => true
  | _ => false

/-- The per-element normalisation inside `_unique_colors` (main.py:1782):
strip, upper-case, prepend `#` when missing, keep only 7-character results. -/
def normalizeSwatch (c : String) : Option String :=
  let cu := pyUpper (pyStrip c)
  let cu := if startsWithHash cu then cu else "#" ++ cu
  if cu.toList.length = 7 then some cu else none

def uniqueLimitReached (acc : List String) : Option Nat → Bool
  | some l => acc.length ≥ l
  | none => false

def unique_colors_aux (limit : Option Nat) (acc : List String) :
    List String → List String
  | [] => acc.reverse
  | c :: rest =>
    match normalizeSwatch c with
    | none => unique_colors_aux limit acc rest
    | some cu =>
      if cu ∈ acc then unique_colors_aux limit acc rest
      else if uniqueLimitReached (cu :: acc) limit then (cu :: acc).reverse
      else unique_colors_aux limit (cu :: acc) rest

/-- `_unique_colors` as defined on the application class (main.py:1782):
normalise, deduplicate keeping first occurrences, stop once `limit`
normalised colors have been collected. -/
def unique_colors (colors : List String) (limit : Option Nat) : List String :=
  unique_colors_aux limit [] colors

def similarDhOffsets : List Frac :=
  [⟨0, 1⟩, ⟨3, 100⟩, ⟨-3, 100⟩, ⟨7, 100⟩, ⟨-7, 100⟩, ⟨12, 100⟩, ⟨-12, 100⟩]

def similarSatValPairs : List (Frac × Frac) :=
  [(⟨1, 1⟩, ⟨1, 1⟩), (⟨11, 10⟩, ⟨1, 1⟩), (⟨9, 10⟩, ⟨11, 10⟩), (⟨12, 10⟩, ⟨95, 100⟩)]

/-- The candidate colors one seed contributes in `get_similar_colors`
(backend/wallpapers.py:409-420). -/
def similarCandidatesForSeed (h s v : Frac) : List String :=
  similarDhOffsets.flatMap fun dh =>
    similarSatValPairs.map fun sv =>
      let nh := Frac.mod1 (Frac.add h dh)
      let ns := pyClampFrac ⟨18, 100⟩ ⟨1, 1⟩ (Frac.mul s sv.1)
      let nv := pyClampFrac ⟨2, 10⟩ ⟨1, 1⟩ (Frac.mul v sv.2)
      let rgb := hsv_to_rgb nh ns nv
      rgb_to_hex rgb.1 rgb.2.1 rgb.2.2

def theoryDegOffsets : List Int := [0, 30, -30, 180, 150, -150, 120, -120, 90, -90]

def theorySatValPairs : List (Frac × Frac) :=
  [(⟨1, 1⟩, ⟨1, 1⟩), (⟨85, 100⟩, ⟨108, 100⟩), (⟨115, 100⟩, ⟨92, 100⟩)]

def theoryMonoVals : List Frac :=
  [⟨28, 100⟩, ⟨42, 100⟩, ⟨56, 100⟩, ⟨70, 100⟩, ⟨84, 100⟩, ⟨95, 100⟩]

/-- The candidate colors one seed contributes in `_build_color_theory_colors`
(main.py:1807-1819): ten hue offsets under three saturation/value multiplier
pairs, then six monochromatic value steps. -/
def theoryCandidatesForSeed (h s v : Frac) : List String :=
  (theoryDegOffsets.flatMap fun deg =>
    theorySatValPairs.map fun sv =>
      let nh := Frac.mod1 (Frac.add h (Frac.div (Frac.ofInt deg) ⟨360, 1⟩))
      let ns := pyClampFrac ⟨18, 100⟩ ⟨1, 1⟩ (Frac.mul s sv.1)
      let nv := pyClampFrac ⟨16, 100⟩ ⟨1, 1⟩ (Frac.mul v sv.2)
      let rgb := hsv_to_rgb nh ns nv
      rgb_to_hex rgb.1 rgb.2.1 rgb.2.2)
  ++ theoryMonoVals.map fun vv =>
      let rgb := hsv_to_rgb h (Frac.fmax ⟨12, 100⟩ (Frac.mul s ⟨75, 100⟩)) vv
      rgb_to_hex rgb.1 rgb.2.1 rgb.2.2

/-- One iteration of the seed loop in `_build_color_theory_colors`
(main.py:1803-1819): parse the seed, convert to HSV, append its
candidates. -/
def theoryStep (acc : List String) (color_hex : String) :
    Except PyErr (List String) := do
  let rgb ← hex_to_rgb color_hex
  let hsv := rgb_to_hsv rgb.1 rgb.2.1 rgb.2.2
  pure (acc ++ theoryCandidatesForSeed hsv.1 hsv.2.1 hsv.2.2)

/-- One iteration of the seed loop in `get_similar_colors`
(backend/wallpapers.py:406-420). -/
def similarStep (acc : List String) (color_hex : String) :
    Except PyErr (List String) := do
  let rgb ← hex_to_rgb color_hex
  let hsv := rgb_to_hsv rgb.1 rgb.2.1 rgb.2.2
  pure (acc ++ similarCandidatesForSeed hsv.1 hsv.2.1 hsv.2.2)

/-- `_build_color_theory_colors` as defined on the application class
(main.py:1799), where `_unique_colors` exists: seed selection, candidate
generation per seed, final dedup limited to 36. -/
def build_color_theory_colors (base_colors : List String) :
    Except PyErr (List String) := do
  let u := unique_colors base_colors (some 3)
  let seeds := if u.isEmpty then ["#5E81AC"] else u
  let result ← seeds.foldlM theoryStep []
  pure (unique_colors result (some 36))

/-- Attribute lookup of `_unique_colors` on a `WallpaperService` instance:
the attribute is defined only on the application class in `main.py`, so any
call of `self._unique_colors` inside `backend/wallpapers.py` raises
`AttributeError`. -/
def ws_unique_colors (_colors : List String) (_limit : Option Nat) :
    Except PyErr (List String) :=
  .error .attributeError

/-- `seeds = base_colors[:5] if base_colors else ["#5e81ac"]`
(backend/wallpapers.py:405). -/
def similarSeeds (base_colors : List String) : List String :=
  if base_colors.isEmpty then ["#5e81ac"] else pySliceTo 5 base_colors

/-- `WallpaperService.get_similar_colors` (backend/wallpapers.py:403):
the candidate-building loop runs (and can itself raise `ValueError` on a
malformed hex seed), then the final `self._unique_colors` call raises
`AttributeError`. -/
def ws_get_similar_colors (base_colors : List String) :
    Except PyErr (List String) := do
  let seeds := similarSeeds base_colors
  let result ← seeds.foldlM similarStep []
  ws_unique_colors result (some 30)

/-- `WallpaperService.get_color_theory_colors` (backend/wallpapers.py:424):
its very first expression is `self._unique_colors(base_colors, limit=3)`,
which raises `AttributeError` before any color math runs. -/
def ws_get_color_theory_colors (base_colors : List String) :
    Except PyErr (List String) := do
  let seeds0 ← ws_unique_colors base_colors (some 3)
  let seeds := if seeds0.isEmpty then ["#5E81AC"] else seeds0
  let result ← seeds.foldlM theoryStep []
  pure (unique_colors result (some 36))

/-- `WallpaperService.record_colorize_swatch` (backend/wallpapers.py:455):
its first statement is `self._unique_colors([color_hex], limit=1)`, which
raises `AttributeError` (the rest of the body is unreachable and elided). -/
def ws_record_colorize_swatch (color_hex : String) : Except PyErr Unit := do
  let _normalized ← ws_unique_colors [color_hex] (some 1)
  pure ()

/-- `WallpaperService.get_recent_colorize_swatches`
(backend/wallpapers.py:448): when the stored `colorize_recent` value is not
a list it returns `[]` early; otherwise it reaches `self._unique_colors`
and raises `AttributeError`. -/
def ws_get_recent_colorize_swatches (sectionFields : List (String × JVal)) :
    Except PyErr (List String) :=
  let values := (pyDictGet sectionFields "colorize_recent").getD (.arr [])
  match values with
  | .arr _ =>
    -- the attribute lookup `self._unique_colors` raises before the call
    -- happens, so the argument list is irrelevant
    ws_unique_colors [] (some 24)
  | _ => .ok []

/-- A byte-for-byte view of a loaded, downscaled GdkPixbuf: dimensions,
channel count, rowstride, and the pixel byte array (bytes are 0..255). -/
structure PixImage where
  width : Nat
  height : Nat
  nChannels : Nat
  rowstride : Nat
  data : Nat → Fin 256

abbrev RGB := Nat × Nat × Nat

/-- Python `range(0, stop, step)` for `step ≥ 1`. -/
def pyRangeStep (stop step : Nat) : List Nat :=
  (List.range ((stop + step - 1) / step)).map (· * step)

def assocGet [DecidableEq κ] (l : List (κ × α)) (k : κ) : Option α :=
  match l with
  | [] => none
  | (k0, v) :: rest => if k0 = k then some v else assocGet rest k

def assocSet [DecidableEq κ] (l : List (κ × α)) (k : κ) (v : α) : List (κ × α) :=
  match l with
  | [] => [(k, v)]
  | (k0, v0) :: rest =>
    if k0 = k then (k0, v) :: rest else (k0, v0) :: assocSet rest k v

/-- Increment the frequency of `key` in an insertion-ordered dict. -/
def bumpFreq (freq : List (RGB × Nat)) (key : RGB) : List (RGB × Nat) :=
  match freq with
  | [] => [(key, 1)]
  | (k, c) :: rest =>
    if k = key then (k, c + 1) :: rest else (k, c) :: bumpFreq rest key

/-- The sampling loop of `extract_palette` (backend/wallpapers.py:330-344):
visit every `step`-th row and column, skip mostly-transparent RGBA pixels,
quantize each channel down to a multiple of 24, count frequencies in a dict
that keeps insertion order. -/
def sampledFreq (img : PixImage) : List (RGB × Nat) :=
  let step := max 1 ((img.width * img.height) / 1800)
  (pyRangeStep img.height step).foldl (fun freq y =>
    (pyRangeStep img.width step).foldl (fun freq x =>
      let i := y * img.rowstride + x * img.nChannels
      let r := (img.data i).val
      let g := (img.data (i + 1)).val
      let b := (img.data (i + 2)).val
      if img.nChannels = 4 ∧ (img.data (i + 3)).val < 20 then freq
      else bumpFreq freq (r / 24 * 24, g / 24 * 24, b / 24 * 24)) freq) []

/-- Stable insertion into a list sorted by descending count: the new entry
goes after every earlier entry with an equal or larger count, which is
exactly how Python's stable `sorted(..., reverse=True)` arranges ties. -/
def insertRanked (x : RGB × Nat) : List (RGB × Nat) → List (RGB × Nat)
  | [] => [x]
  | y :: ys => if y.2 < x.2 then x :: y :: ys else y :: insertRanked x ys

/-- `sorted(freq.items(), key=lambda kv: kv[1], reverse=True)`
(backend/wallpapers.py:346), a stable descending sort by count. -/
def rankFreq (freq : List (RGB × Nat)) : List (RGB × Nat) :=
  freq.foldl (fun acc kv => insertRanked kv acc) []

/-- The squared Euclidean RGB distance.  `_color_distance`
(backend/wallpapers.py:400) takes `math.sqrt` of this and the caller
compares the root with 30; we compare the square with 900, which is
equivalent (both sides are non-negative and 30² = 900, with 900 and its
neighbours exactly representable). -/
def color_distance_sq (a b : RGB) : Int :=
  ((a.1 : Int) - (b.1 : Int)) ^ 2 + ((a.2.1 : Int) - (b.2.1 : Int)) ^ 2 +
    ((a.2.2 : Int) - (b.2.2 : Int)) ^ 2

/-- One iteration of the greedy picking loop
(backend/wallpapers.py:348-350): append a ranked color when it is at
distance ≥ 30 from every previously picked color. -/
def pick_step (picked : List RGB) (c : RGB) : List RGB :=
  if picked.all (fun p => 900 ≤ color_distance_sq c p) then picked ++ [c]
  else picked

/-- The greedy picking loop of `extract_palette`
(backend/wallpapers.py:347-352): run `pick_step` on each ranked color in
order, and stop as soon as `count` colors are held (Python checks the
break condition after the conditional append). -/
def pick_colors (count : Int) (picked : List RGB) : List RGB → List RGB
  | [] => picked
  | c :: rest =>
    if count ≤ ((pick_step picked c).length : Int) then pick_step picked c
    else pick_colors count (pick_step picked c) rest

def rgbToHexStr (c : RGB) : String :=
  String.mk ('#' :: (toHex2 c.1 ++ toHex2 c.2.1 ++ toHex2 c.2.2))

/-- The colors computed by the `try` block of `extract_palette` for a
successfully loaded image. -/
def extracted_colors (img : PixImage) (count : Int) : List String :=
  let ranked := rankFreq (sampledFreq img)
  let picked := pick_colors count [] (ranked.map (·.1))
  picked.map rgbToHexStr

def default_palette : List String :=
  ["#4c566a", "#5e81ac", "#88c0d0", "#a3be8c", "#ebcb8b"]

/-- The palette `extract_palette` computes and stores on a cache miss
(backend/wallpapers.py:322-364): the extraction result, the fixed default
palette when extraction yielded nothing (`load = none` models the GdkPixbuf
load raising), sliced to `count` entries. -/
def fresh_palette (load : Option PixImage) (count : Int) : List String :=
  let colors :=
    match load with
    | none => []
    | some img => extracted_colors img count
  let colors := if colors.isEmpty then default_palette else colors
  pySliceTo count colors

/-- The SHA-1 pre-image `_palette_cache_key` hashes
(backend/wallpapers.py:249-256): resolved path, mtime (ns), size, count.
The hash itself is modelled as injective, i.e. the key is the tuple. -/
structure PaletteKey where
  resolved : String
  mtimeNs : Int
  size : Int
  count : Int
  deriving DecidableEq, Repr

/-- The palette caching state of `WallpaperService` (in-memory tier,
on-disk-mirror tier, dirty bookkeeping). -/
structure PaletteCacheState where
  memCache : List (PaletteKey × List String)
  diskCache : List (PaletteKey × List String)
  dirty : Bool
  dirtyCount : Nat

def emptyPaletteCache : PaletteCacheState := ⟨[], [], false, 0⟩

structure PaletteFetchResult where
  colors : List String
  state : PaletteCacheState
  extracted : Bool

/-- `WallpaperService.extract_palette` (backend/wallpapers.py:307-369).
`resolved`/`sig` describe `path.resolve()` and `_file_signature(path)`;
`load` describes the GdkPixbuf load outcome on the extraction path.
Truthiness of `if cached:` means empty cached lists are treated as misses.
(`_maybe_flush_palette_cache` only touches the on-disk file, not the two
dictionaries, and is elided.) -/
def extract_palette (st : PaletteCacheState) (resolved : String)
    (sig : Int × Int) (count : Int) (load : Option PixImage) :
    PaletteFetchResult :=
  let key : PaletteKey := ⟨resolved, sig.1, sig.2, count⟩
  let memHit :=
    match assocGet st.memCache key with
    | some cached => if cached.isEmpty then none else some cached
    | none => none
  match memHit with
  | some cached => ⟨cached, st, false⟩
  | none =>
    let diskHit :=
      match assocGet st.diskCache key with
      | some c => if c.isEmpty then none else some c
      | none => none
    match diskHit with
    | some diskCached =>
      let v := pySliceTo count diskCached
      ⟨v, { st with memCache := assocSet st.memCache key v }, false⟩
    | none =>
      let v := fresh_palette load count
      ⟨v,
        { memCache := assocSet st.memCache key v,
          diskCache := assocSet st.diskCache key v,
          dirty := true,
          dirtyCount := st.dirtyCount + 1 },
        true⟩

def darkNameTokens : List String := ["dark", "black", "night", "nokto", "dracula", "noir"]

def lightNameTokens : List String := ["light", "white", "day"]

def isSublistAt (needle hay : List Char) : Bool :=
  match needle, hay with
  | [], _ => true
  | _ :: _, [] => false
  | a :: as, b :: bs => a = b && isSublistAt as bs

/-- Python `needle in hay` on strings: substring containment. -/
def strContains (hay needle : String) : Bool :=
  let rec go : List Char → Bool
    | [] => needle.toList.isEmpty
    | l@(_ :: rest) => isSublistAt needle.toList l || go rest
  go hay.toList

/-- `GtkThemeService._looks_dark_name` (backend/gtk_themes.py:147). -/
def looks_dark_name (name : String) : Bool :=
  darkNameTokens.any fun t => strContains (pyLower name) t

/-- `GtkThemeService._looks_light_name` (backend/gtk_themes.py:152). -/
def looks_light_name (name : String) : Bool :=
  lightNameTokens.any fun t => strContains (pyLower name) t

/-- `GtkThemeService._get_luminance` (backend/gtk_themes.py:275): strip
`#`, expand 3-digit forms, fall back to 0.5 on short or unparsable input,
otherwise `(0.2126*R + 0.7152*G + 0.0722*B) / 255`. -/
def get_luminance (hex_color : String) : Frac :=
  let value := (pyLstripHash hex_color).toList
  let value := if value.length = 3 then value.flatMap (fun c => [c, c]) else value
  if value.length < 6 then ⟨1, 2⟩
  else
    match pyIntHex (String.mk (value.take 2)),
        pyIntHex (String.mk ((value.drop 2).take 2)),
        pyIntHex (String.mk ((value.drop 4).take 2)) with
    | some r, some g, some b =>
      Frac.div
        (Frac.add
          (Frac.add (Frac.mul ⟨2126, 10000⟩ (Frac.ofInt r))
            (Frac.mul ⟨7152, 10000⟩ (Frac.ofInt g)))
          (Frac.mul ⟨722, 10000⟩ (Frac.ofInt b)))
        ⟨255, 1⟩
    | _, _, _ => ⟨1, 2⟩

structure ThemeMeta where
  bg : String
  fg : String
  accent : String
  themeType : String
  deriving DecidableEq, Repr

def defaultThemeBg : String := "#2f343f"
def defaultThemeFg : String := "#e6eaf0"
def defaultThemeAccent : String := "#5ba1ea"

structure MetadataFetchResult where
  meta : ThemeMeta
  cache : List (String × Frac × ThemeMeta)
  reparsed : Bool

/-- `GtkThemeService.get_theme_metadata` (backend/gtk_themes.py:185-246).
`cacheKey` is the resolved CSS path; `statRes` is the `stat` outcome as an
(mtime, size) pair (`none` models the call raising, leaving `mtime = 0.0`);
the size component is carried by `os.stat` but this function only ever
reads `st_mtime`.  `readResult` describes the CSS read-and-regex-extract
step: `none` models the read raising, otherwise the three optional
extracted colors. -/
def get_theme_metadata (cache : List (String × Frac × ThemeMeta))
    (name : String) (cacheKey : String) (statRes : Option (Frac × Int))
    (readResult : Option (Option String × Option String × Option String)) :
    MetadataFetchResult :=
  let mtime := (statRes.map (·.1)).getD ⟨0, 1⟩
  let cachedHit :=
    match assocGet cache cacheKey with
    | some mm => if Frac.beqv mm.1 mtime then some mm.2 else none
    | none => none
  match cachedHit with
  | some meta => ⟨meta, cache, false⟩
  | none =>
    let bg := match readResult with
      | none => defaultThemeBg
      | some ext => ext.1.getD defaultThemeBg
    let fg := match readResult with
      | none => defaultThemeFg
      | some ext => ext.2.1.getD defaultThemeFg
    let accent := match readResult with
      | none => defaultThemeAccent
      | some ext => ext.2.2.getD defaultThemeAccent
    let hasDark := looks_dark_name name
    let hasLight := looks_light_name name
    let ttype :=
      if hasDark && !hasLight then "dark"
      else if hasLight && !hasDark then "light"
      else if Frac.blt (get_luminance bg) ⟨46, 100⟩ then "dark"
      else "light"
    let meta : ThemeMeta := ⟨bg, fg, accent, ttype⟩
    ⟨meta, assocSet cache cacheKey (mtime, meta), true⟩

/-- The observable states of the settings file when `SettingsStore.load`
runs: absent, unreadable (`read_text` raises), unparsable (`json.loads`
raises), or some parsed JSON document. -/
inductive SettingsFile where
  | missing
  | unreadable
  | invalidJson
  | content (v : JVal)

/-- `SettingsStore.load` (backend/settings.py:14-23): the value `self.data`
holds afterwards.  Every failure, and any parsed document that is not an
object, falls back to the empty dict. -/
def settings_load (file : SettingsFile) : JVal :=
  match file with
  | .missing => .obj []
  | .unreadable => .obj []
  | .invalidJson => .obj []
  | .content v =>
    match v with
    | .obj fields => .obj fields
    | _ => .obj []

def JVal.isObj : JVal → Bool
  | .obj _ => true
  | _ => false

structure SectionResult where
  data : List (String × JVal)
  sectionOut : List (String × JVal)

/-- `SettingsStore.get_section` (backend/settings.py:32-37): return the
stored section when it is a dict, otherwise install (and return) a copy of
`default or {}`. -/
def get_section (data : List (String × JVal)) (key : String)
    (default : Option (List (String × JVal))) : SectionResult :=
  match pyDictGet data key with
  | some (JVal.obj fields) => ⟨data, fields⟩
  | _ =>
    let value := default.getD []
    ⟨pyDictSet data key (.obj value), value⟩

def isDecDigitChar (c : Char) : Bool := '0' ≤ c ∧ c ≤ '9'

def decDigitsVal (acc : Nat) : List Char → Nat
  | [] => acc
  | c :: cs => decDigitsVal (acc * 10 + (c.toNat - '0'.toNat)) cs

/-- Python `int(s)` on a string: optional surrounding whitespace, optional
sign, non-empty run of decimal digits; anything else raises `ValueError`
(modelled as `none`). -/
def pyIntDecimal (s : String) : Option Int :=
  let cs := (s.toList.dropWhile isPySpace).reverse.dropWhile isPySpace |>.reverse
  let (sign, digits) :=
    match cs with
    | '+' :: rest => ((1 : Int), rest)
    | '-' :: rest => ((-1 : Int), rest)
    | rest => ((1 : Int), rest)
  if digits.isEmpty then none
  else if digits.all isDecDigitChar then
    some (sign * (decDigitsVal 0 digits : Int))
  else none

/-- Python `int(value)` on a JSON-shaped value: ints pass through, bools
become 0/1, floats truncate toward zero, strings parse as decimal
integers; `None`, lists and dicts raise (`none`). -/
def pyIntOf : JVal → Option Int
  | .int n => some n
  | .bool b => some (if b then 1 else 0)
  | .float q => some (Frac.trunc q)
  | .str s => pyIntDecimal s
  | _ => none

def THUMB_SIZE_MIN : Int := 160
def THUMB_SIZE_MAX : Int := 320
def THUMB_SIZE_DEFAULT : Int := 220

/-- `WallpaperService.get_thumb_size` (backend/wallpapers.py:174-180):
read `wallpapers.thumb_size`, fall back to the default on parse failure,
clamp into `[THUMB_SIZE_MIN, THUMB_SIZE_MAX]`. -/
def get_thumb_size (data : List (String × JVal)) : Int :=
  let sr := get_section data "wallpapers" (some [])
  let value := (pyDictGet sr.sectionOut "thumb_size").getD (.int THUMB_SIZE_DEFAULT)
  let size := (pyIntOf value).getD THUMB_SIZE_DEFAULT
  pyClampInt THUMB_SIZE_MIN THUMB_SIZE_MAX size

/-- `WallpaperService.set_thumb_size` (backend/wallpapers.py:182-189):
parse (falling back to the default), clamp, store into the `wallpapers`
section.  Returns the updated settings data. -/
def set_thumb_size (data : List (String × JVal)) (size : JVal) :
    List (String × JVal) :=
  let parsed := (pyIntOf size).getD THUMB_SIZE_DEFAULT
  let sr := get_section data "wallpapers" (some [])
  pyDictSet sr.data "wallpapers"
    (.obj (pyDictSet sr.sectionOut "thumb_size"
      (.int (pyClampInt THUMB_SIZE_MIN THUMB_SIZE_MAX parsed))))

/-- A flat filesystem: paths mapped to file contents. -/
abbrev Fs := List (String × String)

def fsGet (fs : Fs) (path : String) : Option String :=
  match fs with
  | [] => none
  | (p, c) :: rest => if p = path then some c else fsGet rest path

def fsSet (fs : Fs) (path content : String) : Fs :=
  match fs with
  | [] => [(path, content)]
  | (p, c) :: rest =>
    if p = path then (p, content) :: rest else (p, c) :: fsSet rest path content

def fsRemove (fs : Fs) (path : String) : Fs :=
  match fs with
  | [] => []
  | (p, c) :: rest => if p = path then rest else (p, c) :: fsRemove rest path

/-- The outcome of one `Path.write_text` call: it either completes, or
fails partway leaving the target holding an arbitrary prefix of the data
(the kernel may have flushed any amount before the error). -/
inductive WriteOutcome where
  | ok
  | failPartial (written : String)

def writeText (fs : Fs) (path : String) (content : String)
    (outcome : WriteOutcome) : Fs :=
  match outcome with
  | .ok => fsSet fs path content
  | .failPartial written => fsSet fs path written

/-- `Path.replace`: an atomic rename of `src` over `dst`. -/
def fsReplace (fs : Fs) (src dst : String) : Fs :=
  match fsGet fs src with
  | some c => fsSet (fsRemove fs src) dst c
  | none => fs

/-- `SettingsStore.save` (backend/settings.py:25-30): a single direct
`write_text` of the JSON dump onto the settings file itself — no temp
file, no rename. -/
def settings_save (fs : Fs) (path : String) (jsonDump : String)
    (outcome : WriteOutcome) : Fs :=
  writeText fs path jsonDump outcome

/-- The temp-file-then-rename writer shared by
`WallpaperService._save_palette_cache_to_disk`
(backend/wallpapers.py:292-297) and
`GtkThemeService._save_metadata_cache_to_disk`
(backend/gtk_themes.py:85-90): write the dump to `tmpPath`, then
atomically rename it over `path`.  When the temp write fails partway the
exception is caught and the rename never runs. -/
def atomic_cache_save (fs : Fs) (path tmpPath : String) (jsonDump : String)
    (outcome : WriteOutcome) : Fs :=
  match outcome with
  | .ok => fsReplace (writeText fs tmpPath jsonDump .ok) tmpPath path
  | .failPartial written => writeText fs tmpPath jsonDump (.failPartial written)

/-- The outcome of one `gsettings set` subprocess: it ran and exited with
a code (stderr text attached), or `subprocess.run` itself raised. -/
inductive GsOutcome where
  | ran (returncode : Int) (stderr : String)
  | raised (msg : String)

structure ApplyResult where
  ok : Bool
  message : String
  invoked : Bool

/-- `InterfaceThemeService._gsettings_set` (backend/interface_themes.py:122):
`returncode == 0` yields `(True, "")`, a nonzero exit yields the stripped
stderr (or a fixed message when empty), a raised exception its text. -/
def gsettings_set (outcome : GsOutcome) : Bool × String :=
  match outcome with
  | .ran rc stderr =>
    if rc = 0 then (true, "")
    else (false, if pyStrip stderr = "" then "gsettings set failed" else pyStrip stderr)
  | .raised msg => (false, msg)

/-- `InterfaceThemeService.apply_icon_theme` (backend/interface_themes.py:143):
`available` is the name set of `list_icon_themes()`; `outcome` describes
the `gsettings set` subprocess, which runs only past the membership check. -/
def apply_icon_theme (available : List String) (theme_name : String)
    (outcome : GsOutcome) : ApplyResult :=
  if theme_name ∈ available then
    let r := gsettings_set outcome
    if r.1 then ⟨true, "Applied icon theme: " ++ theme_name, true⟩
    else ⟨false, "Failed to apply icon theme: " ++ r.2, true⟩
  else ⟨false, "Icon theme not found: " ++ theme_name, false⟩

/-- `InterfaceThemeService.apply_cursor_theme` (backend/interface_themes.py:152). -/
def apply_cursor_theme (available : List String) (theme_name : String)
    (outcome : GsOutcome) : ApplyResult :=
  if theme_name ∈ available then
    let r := gsettings_set outcome
    if r.1 then ⟨true, "Applied cursor theme: " ++ theme_name, true⟩
    else ⟨false, "Failed to apply cursor theme: " ++ r.2, true⟩
  else ⟨false, "Cursor theme not found: " ++ theme_name, false⟩

/-- `GtkThemeService.apply_theme` (backend/gtk_themes.py:304-328):
membership check against `list_themes()` names, then an inline
`gsettings set` subprocess with the same success/failure mapping. -/
def gtk_apply_theme (available : List String) (theme_name : String)
    (outcome : GsOutcome) : ApplyResult :=
  if theme_name ∈ available then
    match outcome with
    | .ran rc stderr =>
      if rc = 0 then ⟨true, "Applied GTK theme: " ++ theme_name, true⟩
      else
        ⟨false,
          "Failed to apply GTK theme: " ++
            (if pyStrip stderr = "" then "gsettings set failed" else pyStrip stderr),
          true⟩
    | .raised msg => ⟨false, "Failed to apply GTK theme: " ++ msg, true⟩
  else ⟨false, "Theme not found: " ++ theme_name, false⟩

/-- An `xml.etree.ElementTree` element: tag, optional text, child list. -/
inductive Xml where
  | node (tag : String) (text : Option String) (children : List Xml)

def Xml.tagOf : Xml → String
  | .node tag _ _ => tag

def Xml.textOf : Xml → Option String
  | .node _ text _ => text

def Xml.childCount : Xml → Nat
  | .node _ _ cs => cs.length

/-- Python `s.endswith(suffix)`. -/
def strEndsWith (s suffix : String) : Bool :=
  isSublistAt suffix.toList.reverse s.toList.reverse

/-- The inner loop of `_find_theme_name_node` (backend/themes.py:52-55):
index of the first direct child whose tag ends with `"name"`. -/
def findNameIdx (i : Nat) : List Xml → Option Nat
  | [] => none
  | .node tag _ _ :: rest =>
    if strEndsWith tag "name" then some i else findNameIdx (i + 1) rest

mutual
/-- `WindowThemeService._find_theme_name_node` (backend/themes.py:49-56),
returning the path (child indices from the root) of the node Python
returns: scan all nodes in document (preorder) order, and for the first
node whose tag ends with `"theme"` and that has a direct child whose tag
ends with `"name"`, return that child. -/
def findThemePath : Xml → Option (List Nat)
  | .node tag _ cs =>
    if strEndsWith tag "theme" then
      match findNameIdx 0 cs with
      | some i => some [i]
      | none => findThemeInChildren 0 cs
    else findThemeInChildren 0 cs

def findThemeInChildren (i : Nat) : List Xml → Option (List Nat)
  | [] => none
  | c :: rest =>
    match findThemePath c with
    | some p => some (i :: p)
    | none => findThemeInChildren (i + 1) rest
end

mutual
/-- The node of a tree at a path of child indices. -/
def getAt : Xml → List Nat → Option Xml
  | x, [] => some x
  | .node _ _ cs, i :: p => getInChildren cs i p

def getInChildren : List Xml → Nat → List Nat → Option Xml
  | [], _, _ => none
  | c :: _, 0, p => getAt c p
  | _ :: cs, i + 1, p => getInChildren cs i p
end

mutual
/-- `name_node.text = theme_name` (backend/themes.py:87), as a functional
update of the text of the node at the given path. -/
def setTextAt : Xml → List Nat → String → Xml
  | .node tag _ cs, [], t => .node tag (some t) cs
  | .node tag tx cs, i :: p, t => .node tag tx (setTextInChildren cs i p t)

def setTextInChildren : List Xml → Nat → List Nat → String → List Xml
  | [], _, _, _ => []
  | c :: cs, 0, p, t => setTextAt c p t :: cs
  | c :: cs, i + 1, p, t => c :: setTextInChildren cs i p t
end

/-- The observable states of `~/.config/openbox/rc.xml`: absent,
present but unparsable (`ET.parse` raises), or a parsed document. -/
inductive RcXmlFile where
  | missing
  | unparsable
  | parsed (root : Xml)

structure WindowApplyResult where
  ok : Bool
  message : String
  file : RcXmlFile

/-- `WindowThemeService.apply_theme` (backend/themes.py:72-93).
`available` is the name set of `list_themes()`; `obOutcome` describes the
`subprocess.run(["openbox", "--reconfigure"], check=False)` call, which
can itself raise (e.g. `FileNotFoundError` when the binary is absent) and
is only reached after the file has been rewritten.  `file` in the result
is the rc.xml content afterwards. -/
def window_apply_theme (file : RcXmlFile) (available : List String)
    (theme_name : String) (obOutcome : GsOutcome) : WindowApplyResult :=
  match file with
  | .missing => ⟨false, "Openbox configuration file not found.", .missing⟩
  | .unparsable =>
    if theme_name ∈ available then
      ⟨false, "Failed to apply theme: rc.xml parse error", .unparsable⟩
    else ⟨false, "Theme not found: " ++ theme_name, .unparsable⟩
  | .parsed root =>
    if theme_name ∈ available then
      match findThemePath root with
      | none => ⟨false, "Could not find <theme><name> in rc.xml", .parsed root⟩
      | some p =>
        let rewritten : RcXmlFile := .parsed (setTextAt root p theme_name)
        match obOutcome with
        | .ran _ _ => ⟨true, "Applied window theme: " ++ theme_name, rewritten⟩
        | .raised msg => ⟨false, "Failed to apply theme: " ++ msg, rewritten⟩
    else ⟨false, "Theme not found: " ++ theme_name, .parsed root⟩

/-- The candidates one seed contributes in `build_color_theory_colors`,
keyed by the seed's hex string (empty for seeds whose hex pairs fail to
parse — those make the builder raise instead). -/
def theoryCandidatesOfHex (color_hex : String) : List String :=
  match hex_to_rgb color_hex with
  | .ok rgb =>
    let hsv := rgb_to_hsv rgb.1 rgb.2.1 rgb.2.2
    theoryCandidatesForSeed hsv.1 hsv.2.1 hsv.2.2
  | .error _ => []

/-- The seed list `_build_color_theory_colors` works from (main.py:1800). -/
def theorySeeds (base_colors : List String) : List String :=
  let u := unique_colors base_colors (some 3)
  if u.isEmpty then ["#5E81AC"] else u

def JVal.isArr : JVal → Bool
  | .arr _ => true
  | _ => false

/-- The greedy pick result of `extract_palette` on a loaded image. -/
def pickedOf (img : PixImage) (count : Int) : List RGB :=
  pick_colors count [] ((rankFreq (sampledFreq img)).map (·.1))

/-- A concrete pixel buffer used to instantiate universally quantified
statements about the extraction pipeline. -/
def samplePix : PixImage :=
  { width := 6, height := 5, nChannels := 4, rowstride := 26,
    data := fun i => Fin.ofNat ((i * 37 + 11) % 256) }

/-- A concrete parsed rc.xml document used to instantiate universally
quantified statements about the Openbox apply path. -/
def sampleRcXml : Xml :=
  .node "openbox_config" none
    [.node "resistance" none [],
     .node "theme" none
       [.node "titleLayout" (some "NLIMC") [],
        .node "name" (some "Onyx") []],
     .node "keyboard" none []]

/-! ## Helper lemmas -/

theorem pyDictGet_set_self (l : List (String × JVal)) (k : String) (v : JVal) :
    pyDictGet (pyDictSet l k v) k = some v := by
  induction l with
  | nil => simp [pyDictSet, pyDictGet]
  | cons hd tl ih =>
    obtain ⟨k0, v0⟩ := hd
    by_cases h : k0 = k
    · subst h
      simp [pyDictSet, pyDictGet]
    · simp [pyDictSet, pyDictGet, h, ih]

theorem pyClampInt_bounds (lo hi x : Int) (h : lo ≤ hi) :
    lo ≤ pyClampInt lo hi x ∧ pyClampInt lo hi x ≤ hi := by
  unfold pyClampInt
  exact ⟨le_max_left _ _, max_le h (min_le_left _ _)⟩

/-! ## C9: SettingsStore.load and get_section safety -/

/-- C9: `SettingsStore.load` is total and leaves `self.data` a dict for
every file state (missing, unreadable, invalid JSON, non-object document),
falling back to the empty dict on any failure; and `get_section` returns
the stored section exactly when it is a dict, otherwise installs the
provided default into the data and returns it. -/
theorem settings_load_total_and_get_section_dict :
    (∀ file : SettingsFile, (settings_load file).isObj = true)
    ∧ settings_load .missing = .obj []
    ∧ settings_load .unreadable = .obj []
    ∧ settings_load .invalidJson = .obj []
    ∧ (∀ v : JVal, settings_load (.content v) = if v.isObj then v else .obj [])
    ∧ (∀ (data : List (String × JVal)) (key : String)
        (default : Option (List (String × JVal))),
        match pyDictGet data key with
        | some (JVal.obj fields) => get_section data key default = ⟨data, fields⟩
        | _ =>
          get_section data key default =
            ⟨pyDictSet data key (.obj (default.getD [])), default.getD []⟩
          ∧ pyDictGet (get_section data key default).data key =
              some (.obj (default.getD []))) := by
  refine ⟨?_, rfl, rfl, rfl, ?_, ?_⟩
  · intro file
    cases file with
    | content v => cases v <;> simp [settings_load, JVal.isObj]
    | _ => rfl
  · intro v
    cases v <;> simp [settings_load, JVal.isObj]
  · intro data key default
    have hset : pyDictGet (pyDictSet data key (JVal.obj (default.getD []))) key
        = some (JVal.obj (default.getD [])) := pyDictGet_set_self _ _ _
    rcases h : pyDictGet data key with _ | v
    · simp only [h]
      exact ⟨by simp [get_section, h], by simp [get_section, h, hset]⟩
    · cases v with
      | obj fields => simp only [h]; simp [get_section, h]
      | null =>
        simp only [h]
        exact ⟨by simp [get_section, h], by simp [get_section, h, hset]⟩
      | bool b =>
        simp only [h]
        exact ⟨by simp [get_section, h], by simp [get_section, h, hset]⟩
      | int n =>
        simp only [h]
        exact ⟨by simp [get_section, h], by simp [get_section, h, hset]⟩
      | float q =>
        simp only [h]
        exact ⟨by simp [get_section, h], by simp [get_section, h, hset]⟩
      | str s =>
        simp only [h]
        exact ⟨by simp [get_section, h], by simp [get_section, h, hset]⟩
      | arr items =>
        simp only [h]
        exact ⟨by simp [get_section, h], by simp [get_section, h, hset]⟩

/-! ## C10: thumb size bounds -/

/-- C10: `get_thumb_size` always returns an integer in
`[THUMB_SIZE_MIN, THUMB_SIZE_MAX]`; values that do not parse as integers
yield the default, parsable values are clamped; `set_thumb_size` always
stores an already-clamped integer under `wallpapers.thumb_size`. -/
theorem thumb_size_within_bounds :
    (∀ data : List (String × JVal),
      THUMB_SIZE_MIN ≤ get_thumb_size data ∧ get_thumb_size data ≤ THUMB_SIZE_MAX)
    ∧ (∀ data : List (String × JVal),
        match pyIntOf ((pyDictGet (get_section data "wallpapers" (some [])).sectionOut
            "thumb_size").getD (.int THUMB_SIZE_DEFAULT)) with
        | none => get_thumb_size data = THUMB_SIZE_DEFAULT
        | some n => get_thumb_size data = pyClampInt THUMB_SIZE_MIN THUMB_SIZE_MAX n)
    ∧ (∀ (data : List (String × JVal)) (size : JVal),
        match pyDictGet (set_thumb_size data size) "wallpapers" with
        | some (JVal.obj sec) =>
          match pyDictGet sec "thumb_size" with
          | some (JVal.int v) => THUMB_SIZE_MIN ≤ v ∧ v ≤ THUMB_SIZE_MAX
          | _ => False
        | _ => False) := by
  refine ⟨?_, ?_, ?_⟩
  · intro data
    unfold get_thumb_size
    exact pyClampInt_bounds _ _ _ (by decide)
  · intro data
    rcases h : pyIntOf ((pyDictGet (get_section data "wallpapers" (some [])).sectionOut
        "thumb_size").getD (.int THUMB_SIZE_DEFAULT)) with _ | n
    · simp [get_thumb_size, h]
      decide
    · simp [get_thumb_size, h]
  · intro data size
    simp only [set_thumb_size, pyDictGet_set_self]
    exact pyClampInt_bounds _ _ _ (by decide)

theorem fsGet_set_self (fs : Fs) (path c : String) :
    fsGet (fsSet fs path c) path = some c := by
  induction fs with
  | nil => simp [fsSet, fsGet]
  | cons hd tl ih =>
    obtain ⟨p0, c0⟩ := hd
    by_cases h : p0 = path
    · subst h
      simp [fsSet, fsGet]
    · simp [fsSet, fsGet, h, ih]

theorem fsGet_set_other (fs : Fs) (path c q : String) (h : q ≠ path) :
    fsGet (fsSet fs path c) q = fsGet fs q := by
  have hne : ¬path = q := fun hh => h hh.symm
  induction fs with
  | nil =>
    simp only [fsSet, fsGet]
    rw [if_neg hne]
  | cons hd tl ih =>
    obtain ⟨p0, c0⟩ := hd
    by_cases h0 : p0 = path
    · subst h0
      simp only [fsSet, if_pos rfl, fsGet]
      rw [if_neg hne, if_neg hne]
    · simp only [fsSet, if_neg h0, fsGet]
      by_cases h1 : p0 = q
      · rw [if_pos h1, if_pos h1]
      · rw [if_neg h1, if_neg h1]
        exact ih

/-! ## C2: persisted JSON files and atomicity -/

/-- C2 (amended): the palette-cache and theme-metadata-cache writers are
atomic — a temp-file write followed by a rename, so a write that fails
partway leaves the previously persisted target unchanged (only the temp
file holds the partial data), while a completed write installs the new
contents; `SettingsStore.save`, by contrast, writes the settings file in
place, so a completed save installs the new contents but a failed one
leaves whatever prefix was flushed (see the counterexample). -/
theorem cache_saves_atomic_settings_save_direct :
    (∀ (fs : Fs) (path tmpPath dump : String) (outcome : WriteOutcome),
      tmpPath ≠ path →
        (outcome = .ok →
          fsGet (atomic_cache_save fs path tmpPath dump outcome) path = some dump)
        ∧ (∀ w, outcome = .failPartial w →
            fsGet (atomic_cache_save fs path tmpPath dump outcome) path =
              fsGet fs path))
    ∧ (∀ (fs : Fs) (path dump : String),
        fsGet (settings_save fs path dump .ok) path = some dump)
    ∧ (∀ (fs : Fs) (path dump w : String),
        fsGet (settings_save fs path dump (.failPartial w)) path = some w) := by
  refine ⟨?_, ?_, ?_⟩
  · intro fs path tmpPath dump outcome hne
    constructor
    · rintro rfl
      show fsGet (fsReplace (writeText fs tmpPath dump .ok) tmpPath path) path = _
      unfold fsReplace writeText
      rw [fsGet_set_self]
      exact fsGet_set_self _ _ _
    · rintro w rfl
      show fsGet (writeText fs tmpPath dump (.failPartial w)) path = _
      unfold writeText
      exact fsGet_set_other _ _ _ _ (fun hh => hne hh.symm)
  · intro fs path dump
    exact fsGet_set_self _ _ _
  · intro fs path dump w
    exact fsGet_set_self _ _ _

/-- C2 witness: at a concrete filesystem, a palette-cache save that fails
partway leaves the cache file's previous contents in place. -/
theorem cache_save_atomic_witness :
    fsGet (atomic_cache_save [("cache/palette_cache.json", "old")]
        "cache/palette_cache.json" "cache/palette_cache.json.tmp" "new"
        (.failPartial "ne")) "cache/palette_cache.json" =
      fsGet [("cache/palette_cache.json", "old")] "cache/palette_cache.json" :=
  (cache_saves_atomic_settings_save_direct.1 _ _ _ _ _ (by decide)).2 "ne" rfl

/-- C2 counterexample: `SettingsStore.save` is not atomic — a write of
`"NEW"` over a settings file holding `"OLD"` that fails after flushing
`"NE"` leaves the file holding `"NE"`, which is neither the old nor the
new contents. -/
theorem settings_save_not_atomic_counterexample :
    fsGet (settings_save [("settings.json", "OLD")] "settings.json" "NEW"
        (.failPartial "NE")) "settings.json" = some "NE"
    ∧ (some "NE" : Option String) ≠
        fsGet [("settings.json", "OLD")] "settings.json"
    ∧ "NE" ≠ "NEW" := by
  refine ⟨rfl, by decide, by decide⟩

/-! ## C7: theme-apply validation against discovered lists -/

/-- C7: `apply_icon_theme`, `apply_cursor_theme` and
`GtkThemeService.apply_theme` return a "not found" failure without
invoking `gsettings set` for any name missing from the discovered list;
for a present name they invoke it and succeed exactly when the subprocess
exits with status 0. -/
theorem apply_theme_validates_before_gsettings
    (available : List String) (theme_name : String) (outcome : GsOutcome) :
    (theme_name ∉ available →
      apply_icon_theme available theme_name outcome =
        ⟨false, "Icon theme not found: " ++ theme_name, false⟩
      ∧ apply_cursor_theme available theme_name outcome =
        ⟨false, "Cursor theme not found: " ++ theme_name, false⟩
      ∧ gtk_apply_theme available theme_name outcome =
        ⟨false, "Theme not found: " ++ theme_name, false⟩)
    ∧ (theme_name ∈ available →
      ((apply_icon_theme available theme_name outcome).invoked = true
        ∧ (apply_cursor_theme available theme_name outcome).invoked = true
        ∧ (gtk_apply_theme available theme_name outcome).invoked = true)
      ∧ ((apply_icon_theme available theme_name outcome).ok = true ↔
          ∃ err, outcome = .ran 0 err)
      ∧ ((apply_cursor_theme available theme_name outcome).ok = true ↔
          ∃ err, outcome = .ran 0 err)
      ∧ ((gtk_apply_theme available theme_name outcome).ok = true ↔
          ∃ err, outcome = .ran 0 err)) := by
  have hok : (gsettings_set outcome).1 = true ↔ ∃ err, outcome = .ran 0 err := by
    rcases outcome with ⟨rc, err⟩ | msg
    · by_cases hrc : rc = 0
      · subst hrc
        simp [gsettings_set]
      · simp only [gsettings_set, if_neg hrc]
        constructor
        · intro hcontra
          cases hcontra
        · rintro ⟨e, he⟩
          cases he
          exact absurd rfl hrc
    · simp only [gsettings_set]
      constructor
      · intro hcontra
        cases hcontra
      · rintro ⟨e, he⟩
        cases he
  constructor
  · intro h
    refine ⟨?_, ?_, ?_⟩ <;>
      simp [apply_icon_theme, apply_cursor_theme, gtk_apply_theme, h]
  · intro h
    have hicon : apply_icon_theme available theme_name outcome =
        (if (gsettings_set outcome).1 then
          ⟨true, "Applied icon theme: " ++ theme_name, true⟩
        else ⟨false, "Failed to apply icon theme: " ++ (gsettings_set outcome).2,
          true⟩ : ApplyResult) := by
      simp only [apply_icon_theme, if_pos h]
    have hcursor : apply_cursor_theme available theme_name outcome =
        (if (gsettings_set outcome).1 then
          ⟨true, "Applied cursor theme: " ++ theme_name, true⟩
        else ⟨false, "Failed to apply cursor theme: " ++ (gsettings_set outcome).2,
          true⟩ : ApplyResult) := by
      simp only [apply_cursor_theme, if_pos h]
    refine ⟨⟨?_, ?_, ?_⟩, ?_, ?_, ?_⟩
    · rw [hicon]
      split <;> rfl
    · rw [hcursor]
      split <;> rfl
    · simp only [gtk_apply_theme, if_pos h]
      rcases outcome with ⟨rc, err⟩ | msg
      · by_cases hrc : rc = 0
        · subst hrc
          rfl
        · simp only [if_neg hrc]
      · rfl
    · rw [hicon]
      rcases hg : (gsettings_set outcome).1 with _ | _
      · rw [if_neg (by simp [hg])]
        simp only [show ((false = true) ↔ False) by simp]
        constructor
        · exact False.elim
        · intro hex
          exact absurd (hok.mpr hex) (by simp [hg])
      · rw [if_pos (by simp [hg])]
        simpa [hg] using hok
    · rw [hcursor]
      rcases hg : (gsettings_set outcome).1 with _ | _
      · rw [if_neg (by simp [hg])]
        simp only [show ((false = true) ↔ False) by simp]
        constructor
        · exact False.elim
        · intro hex
          exact absurd (hok.mpr hex) (by simp [hg])
      · rw [if_pos (by simp [hg])]
        simpa [hg] using hok
    · simp only [gtk_apply_theme, if_pos h]
      rcases outcome with ⟨rc, err⟩ | msg
      · by_cases hrc : rc = 0
        · subst hrc
          simp
        · simp only [if_neg hrc]
          constructor
          · intro hcontra
            cases hcontra
          · rintro ⟨e, he⟩
            cases he
            exact absurd rfl hrc
      · constructor
        · intro hcontra
          cases hcontra
        · rintro ⟨e, he⟩
          cases he

/-- C7 witness: concrete runs — a missing icon theme is rejected without
invocation, and a present GTK theme applied with exit status 0 succeeds. -/
theorem apply_theme_validates_witness :
    apply_icon_theme ["Papirus"] "Missing" (.ran 0 "") =
      ⟨false, "Icon theme not found: Missing", false⟩
    ∧ (gtk_apply_theme ["Arc"] "Arc" (.ran 0 "")).ok = true
    ∧ (gtk_apply_theme ["Arc"] "Arc" (.raised "boom")).ok = false := by
  refine ⟨((apply_theme_validates_before_gsettings ["Papirus"] "Missing"
      (.ran 0 "")).1 (by decide)).1, ?_, ?_⟩
  · exact ((apply_theme_validates_before_gsettings ["Arc"] "Arc"
      (.ran 0 "")).2 (by decide)).2.2.2.mpr ⟨"", rfl⟩
  · have hiff := ((apply_theme_validates_before_gsettings ["Arc"] "Arc"
      (.raised "boom")).2 (by decide)).2.2.2
    rcases hh : (gtk_apply_theme ["Arc"] "Arc" (.raised "boom")).ok with _ | _
    · rfl
    · exfalso
      obtain ⟨e, he⟩ := hiff.mp hh
      cases he

theorem hex_to_rgb_ok_exists {c : String} (h : (hex_to_rgb c).isOk = true) :
    ∃ v, hex_to_rgb c = .ok v := by
  rcases hh : hex_to_rgb c with e | v
  · rw [hh] at h
    cases h
  · exact ⟨v, rfl⟩

theorem similar_fold_ok (seeds : List String)
    (h : ∀ c ∈ seeds, (hex_to_rgb c).isOk = true) :
    ∀ acc, ∃ v, List.foldlM similarStep acc seeds = Except.ok v := by
  induction seeds with
  | nil =>
    intro acc
    exact ⟨acc, by simp [List.foldlM_nil]; rfl⟩
  | cons c cs ih =>
    intro acc
    obtain ⟨rgb, hrgb⟩ := hex_to_rgb_ok_exists (h c (by simp))
    obtain ⟨v, hv⟩ := ih (fun x hx => h x (by simp [hx])) (acc ++
      similarCandidatesForSeed (rgb_to_hsv rgb.1 rgb.2.1 rgb.2.2).1
        (rgb_to_hsv rgb.1 rgb.2.1 rgb.2.2).2.1 (rgb_to_hsv rgb.1 rgb.2.1 rgb.2.2).2.2)
    refine ⟨v, ?_⟩
    rw [List.foldlM_cons]
    show (similarStep acc c) >>= (fun b => List.foldlM similarStep b cs) = _
    rw [show similarStep acc c = Except.ok (acc ++
        similarCandidatesForSeed (rgb_to_hsv rgb.1 rgb.2.1 rgb.2.2).1
          (rgb_to_hsv rgb.1 rgb.2.1 rgb.2.2).2.1
          (rgb_to_hsv rgb.1 rgb.2.1 rgb.2.2).2.2) by
      simp [similarStep, hrgb]]
    exact hv

theorem theory_fold_eq (seeds : List String)
    (h : ∀ c ∈ seeds, (hex_to_rgb c).isOk = true) :
    ∀ acc, List.foldlM theoryStep acc seeds =
      Except.ok (acc ++ seeds.flatMap theoryCandidatesOfHex) := by
  induction seeds with
  | nil =>
    intro acc
    simp [List.foldlM_nil]
    rfl
  | cons c cs ih =>
    intro acc
    obtain ⟨rgb, hrgb⟩ := hex_to_rgb_ok_exists (h c (by simp))
    rw [List.foldlM_cons]
    show (theoryStep acc c) >>= (fun b => List.foldlM theoryStep b cs) = _
    rw [show theoryStep acc c = Except.ok (acc ++ theoryCandidatesOfHex c) by
      simp [theoryStep, hrgb, theoryCandidatesOfHex]]
    show List.foldlM theoryStep (acc ++ theoryCandidatesOfHex c) cs = _
    rw [ih (fun x hx => h x (by simp [hx]))]
    rw [List.flatMap_cons, List.append_assoc]

/-! ## C3: WallpaperService color helpers raise AttributeError -/

/-- C3 (amended): calling the `WallpaperService` copies of the color
helpers raises `AttributeError` at their `self._unique_colors` call —
unconditionally for `get_color_theory_colors` and
`record_colorize_swatch`; for `get_similar_colors` whenever every seed's
hex pairs parse (a malformed seed raises `ValueError` first); and for
`get_recent_colorize_swatches` whenever the stored `colorize_recent`
value is a list (including the default `[]`), while a non-list stored
value returns `[]` without raising. -/
theorem ws_color_helpers_raise_attribute_error :
    (∀ base : List String,
      ws_get_color_theory_colors base = .error .attributeError)
    ∧ (∀ c : String, ws_record_colorize_swatch c = .error .attributeError)
    ∧ (∀ base : List String,
        (∀ c ∈ similarSeeds base, (hex_to_rgb c).isOk = true) →
        ws_get_similar_colors base = .error .attributeError)
    ∧ (∀ sectionFields : List (String × JVal),
        match (pyDictGet sectionFields "colorize_recent").getD (.arr []) with
        | .arr _ =>
          ws_get_recent_colorize_swatches sectionFields = .error .attributeError
        | _ => ws_get_recent_colorize_swatches sectionFields = .ok []) := by
  refine ⟨fun base => rfl, fun c => rfl, ?_, ?_⟩
  · intro base h
    obtain ⟨v, hv⟩ := similar_fold_ok (similarSeeds base) h []
    show (List.foldlM similarStep [] (similarSeeds base)) >>=
      (fun result => ws_unique_colors result (some 30)) = _
    rw [hv]
    rfl
  · intro sectionFields
    rcases h : (pyDictGet sectionFields "colorize_recent").getD (.arr [])
      with _ | b | n | q | s | items | fields <;>
      simp only [h] <;> simp [ws_get_recent_colorize_swatches, h, ws_unique_colors]

/-- C3 witness: with no base colors the default seed parses, and
`get_similar_colors` raises `AttributeError`. -/
theorem ws_get_similar_colors_raises_witness :
    ws_get_similar_colors [] = .error .attributeError :=
  ws_color_helpers_raise_attribute_error.2.2.1 [] (by decide)

/-- C3 counterexample: two inputs on which the claim "every input raises
`AttributeError`" fails — a non-list stored `colorize_recent` makes
`get_recent_colorize_swatches` return `[]` without raising, and a seed
that normalises to 7 characters but has non-hex pairs makes
`get_similar_colors` raise `ValueError` instead. -/
theorem ws_color_helpers_counterexample :
    ws_get_recent_colorize_swatches [("colorize_recent", JVal.str "x")] =
      .ok []
    ∧ ws_get_similar_colors ["#ZZZZZZ"] = .error .valueError := by
  exact ⟨rfl, rfl⟩

/-! ## C5: light/dark theme classification -/

/-- C5: for a theme name with neither dark nor light tokens,
`get_theme_metadata` classifies the theme as `"dark"` exactly when the
relative luminance of the extracted (or default) background color is
below 0.46, and as `"light"` otherwise; a name carrying exactly one kind
of token overrides the luminance result. -/
theorem theme_classification_by_name_and_luminance
    (name cacheKey : String) (statRes : Option (Frac × Int))
    (readResult : Option (Option String × Option String × Option String)) :
    (looks_dark_name name = false → looks_light_name name = false →
      (((get_theme_metadata [] name cacheKey statRes readResult).meta.themeType
          = "dark")
        ↔ Frac.Lt (get_luminance
            (get_theme_metadata [] name cacheKey statRes readResult).meta.bg)
            ⟨46, 100⟩)
      ∧ (((get_theme_metadata [] name cacheKey statRes readResult).meta.themeType
          = "light")
        ↔ ¬ Frac.Lt (get_luminance
            (get_theme_metadata [] name cacheKey statRes readResult).meta.bg)
            ⟨46, 100⟩))
    ∧ (looks_dark_name name = true → looks_light_name name = false →
        (get_theme_metadata [] name cacheKey statRes readResult).meta.themeType
          = "dark")
    ∧ (looks_light_name name = true → looks_dark_name name = false →
        (get_theme_metadata [] name cacheKey statRes readResult).meta.themeType
          = "light") := by
  refine ⟨?_, ?_, ?_⟩
  · intro hdark hlight
    constructor
    · by_cases hlt : Frac.Lt (get_luminance
          (get_theme_metadata [] name cacheKey statRes readResult).meta.bg)
          ⟨46, 100⟩ <;>
        simp_all [get_theme_metadata, assocGet, Frac.blt]
    · by_cases hlt : Frac.Lt (get_luminance
          (get_theme_metadata [] name cacheKey statRes readResult).meta.bg)
          ⟨46, 100⟩ <;>
        simp_all [get_theme_metadata, assocGet, Frac.blt]
  · intro hdark hlight
    simp [get_theme_metadata, assocGet, hdark, hlight]
  · intro hlight hdark
    simp [get_theme_metadata, assocGet, hdark, hlight]

/-- C5 witness: the tokenless name `"Adwaita"` with extracted background
`#2f343f` (luminance ≈ 0.203 < 0.46) is classified dark. -/
theorem theme_classification_witness :
    (get_theme_metadata [] "Adwaita" "/usr/share/themes/Adwaita/gtk-3.0/gtk.css"
      (some (⟨1, 1⟩, 100)) (some (some "#2f343f", none, none))).meta.themeType
      = "dark" :=
  ((theme_classification_by_name_and_luminance "Adwaita"
      "/usr/share/themes/Adwaita/gtk-3.0/gtk.css" (some (⟨1, 1⟩, 100))
      (some (some "#2f343f", none, none))).1 (by decide) (by decide)).1.mpr
    (by decide)

theorem pySliceTo_ne_nil {α : Type} (k : Int) (l : List α) (hk : 1 ≤ k)
    (hl : l ≠ []) : pySliceTo k l ≠ [] := by
  rcases l with _ | ⟨a, l⟩
  · exact absurd rfl hl
  · unfold pySliceTo
    rw [if_pos (le_trans (by decide) hk)]
    show List.take (max 0 k).toNat (a :: l) ≠ []
    have hmax : max (0 : Int) k = k := max_eq_right (le_trans (by decide) hk)
    rw [hmax]
    have h1 : 1 ≤ k.toNat := by omega
    obtain ⟨m, hm⟩ : ∃ m, k.toNat = m + 1 := ⟨k.toNat - 1, by omega⟩
    rw [hm]
    simp [List.take]

theorem fresh_palette_ne_nil (load : Option PixImage) (count : Int)
    (h : 1 ≤ count) : fresh_palette load count ≠ [] := by
  unfold fresh_palette
  rcases load with _ | img
  · exact pySliceTo_ne_nil _ _ h (by simp [default_palette])
  · by_cases he : (extracted_colors img count).isEmpty
    · simp only [he, if_pos]
      exact pySliceTo_ne_nil _ _ h (by simp [default_palette])
    · simp only [he, if_neg, Bool.false_eq_true, not_false_eq_true]
      refine pySliceTo_ne_nil _ _ h ?_
      intro hnil
      rw [hnil] at he
      exact he rfl

/-- Second lookup of a one-entry metadata cache: a hit exactly when the
key matches and the stored mtime compares equal. -/
theorem meta_second_call (k : String) (m : Frac) (meta : ThemeMeta)
    (name2 k2 : String) (statRes2 : Option (Frac × Int))
    (readRes2 : Option (Option String × Option String × Option String)) :
    ((get_theme_metadata [(k, (m, meta))] name2 k2 statRes2 readRes2).reparsed
        = false
      ↔ (k2 = k ∧ Frac.Eqv m ((statRes2.map (·.1)).getD ⟨0, 1⟩)))
    ∧ ((get_theme_metadata [(k, (m, meta))] name2 k2 statRes2 readRes2).reparsed
        = false →
      (get_theme_metadata [(k, (m, meta))] name2 k2 statRes2 readRes2).meta
        = meta) := by
  by_cases hk : k = k2
  · subst hk
    by_cases he : Frac.Eqv m ((statRes2.map (·.1)).getD ⟨0, 1⟩)
    · constructor
      · simp [get_theme_metadata, assocGet, Frac.beqv, he]
      · intro _
        simp [get_theme_metadata, assocGet, Frac.beqv, he]
    · constructor
      · simp [get_theme_metadata, assocGet, Frac.beqv, he]
      · intro hcontra
        exfalso
        revert hcontra
        simp [get_theme_metadata, assocGet, Frac.beqv, he]
  · constructor
    · simp [get_theme_metadata, assocGet, hk]
      exact fun heq => absurd heq.symm hk
    · intro hcontra
      exfalso
      revert hcontra
      simp [get_theme_metadata, assocGet, hk]

/-! ## C1: derived-asset caches and their keys -/

/-- C1 (amended): starting from an empty cache, a palette-cache entry made
by `extract_palette` at a given (resolved path, mtime+size signature,
count) key with `count ≥ 1` is returned — skipping re-extraction — by a
second call exactly when all of resolved path, signature and count are
unchanged (the SHA-1 over them is modelled as injective; `count = 0`
entries are empty, fail the `if cached:` truthiness test, and are excluded
here — see the counterexample); the theme-metadata cache, by contrast, is
keyed by the resolved CSS path and compares only the stored `st_mtime`:
a second `get_theme_metadata` call skips CSS re-parsing exactly when the
path matches and the mtime compares equal, regardless of file size. -/
theorem caches_keyed_by_file_signature :
    (∀ (resolved : String) (sig : Int × Int) (count : Int)
        (load load2 : Option PixImage) (resolved2 : String) (sig2 : Int × Int)
        (count2 : Int),
      1 ≤ count →
      (((resolved2 = resolved ∧ sig2 = sig ∧ count2 = count) →
        (extract_palette (extract_palette emptyPaletteCache resolved sig count
            load).state resolved2 sig2 count2 load2).extracted = false
        ∧ (extract_palette (extract_palette emptyPaletteCache resolved sig count
            load).state resolved2 sig2 count2 load2).colors =
          (extract_palette emptyPaletteCache resolved sig count load).colors)
      ∧ (¬(resolved2 = resolved ∧ sig2 = sig ∧ count2 = count) →
          (extract_palette (extract_palette emptyPaletteCache resolved sig count
              load).state resolved2 sig2 count2 load2).extracted = true)))
    ∧ (∀ (name cacheKey : String) (statRes : Option (Frac × Int))
        (readRes : Option (Option String × Option String × Option String))
        (name2 cacheKey2 : String) (statRes2 : Option (Frac × Int))
        (readRes2 : Option (Option String × Option String × Option String)),
      ((get_theme_metadata (get_theme_metadata [] name cacheKey statRes
          readRes).cache name2 cacheKey2 statRes2 readRes2).reparsed = false
        ↔ (cacheKey2 = cacheKey ∧
            Frac.Eqv ((statRes.map (·.1)).getD ⟨0, 1⟩)
              ((statRes2.map (·.1)).getD ⟨0, 1⟩)))
      ∧ ((get_theme_metadata (get_theme_metadata [] name cacheKey statRes
          readRes).cache name2 cacheKey2 statRes2 readRes2).reparsed = false →
        (get_theme_metadata (get_theme_metadata [] name cacheKey statRes
            readRes).cache name2 cacheKey2 statRes2 readRes2).meta =
          (get_theme_metadata [] name cacheKey statRes readRes).meta)) := by
  constructor
  · intro resolved sig count load load2 resolved2 sig2 count2 hcount
    have hvne : ((fresh_palette load count).isEmpty = false) := by
      rcases hh : (fresh_palette load count).isEmpty
      · rfl
      · exact absurd (List.isEmpty_iff.mp hh) (fresh_palette_ne_nil load count hcount)
    have hfirst : extract_palette emptyPaletteCache resolved sig count load =
        ⟨fresh_palette load count,
          ⟨[(⟨resolved, sig.1, sig.2, count⟩, fresh_palette load count)],
            [(⟨resolved, sig.1, sig.2, count⟩, fresh_palette load count)],
            true, 1⟩, true⟩ := by
      simp [extract_palette, emptyPaletteCache, assocGet, assocSet]
    constructor
    · rintro ⟨h1, h2, h3⟩
      subst h1; subst h2; subst h3
      rw [hfirst]
      constructor
      · simp [extract_palette, assocGet, hvne]
      · simp [extract_palette, assocGet, hvne]
    · intro hne
      have hkne : (⟨resolved, sig.1, sig.2, count⟩ : PaletteKey) ≠
          ⟨resolved2, sig2.1, sig2.2, count2⟩ := by
        intro hk
        injection hk with e1 e2 e3 e4
        exact hne ⟨e1.symm, Prod.ext e2.symm e3.symm, e4.symm⟩
      rw [hfirst]
      simp [extract_palette, assocGet, hkne]
  · intro name cacheKey statRes readRes name2 cacheKey2 statRes2 readRes2
    have hcache : (get_theme_metadata [] name cacheKey statRes readRes).cache =
        [(cacheKey, ((statRes.map (·.1)).getD ⟨0, 1⟩,
          (get_theme_metadata [] name cacheKey statRes readRes).meta))] := by
      simp [get_theme_metadata, assocGet, assocSet]
    rw [hcache]
    exact meta_second_call cacheKey ((statRes.map (·.1)).getD ⟨0, 1⟩)
      (get_theme_metadata [] name cacheKey statRes readRes).meta
      name2 cacheKey2 statRes2 readRes2

/-- C1 witness: concrete cache round trips — an unchanged palette
signature at `count = 5` hits the cache, a changed count misses, and an
unchanged metadata mtime hits the metadata cache. -/
theorem caches_keyed_witness :
    (extract_palette (extract_palette emptyPaletteCache "/w.png" (5, 7) 5
        none).state "/w.png" (5, 7) 5 none).extracted = false
    ∧ (extract_palette (extract_palette emptyPaletteCache "/w.png" (5, 7) 5
        none).state "/w.png" (5, 7) 4 none).extracted = true
    ∧ (get_theme_metadata (get_theme_metadata [] "Foo" "/t/gtk.css"
        (some (⟨1, 1⟩, 100)) (some (some "#000000", none, none))).cache
        "Foo" "/t/gtk.css" (some (⟨1, 1⟩, 100))
        (some (some "#000000", none, none))).reparsed = false := by
  refine ⟨?_, ?_, ?_⟩
  · exact ((caches_keyed_by_file_signature.1 "/w.png" (5, 7) 5 none none
      "/w.png" (5, 7) 5 (by decide)).1 ⟨rfl, rfl, rfl⟩).1
  · exact (caches_keyed_by_file_signature.1 "/w.png" (5, 7) 5 none none
      "/w.png" (5, 7) 4 (by decide)).2 (by intro h; exact absurd h.2.2 (by decide))
  · exact (caches_keyed_by_file_signature.2 "Foo" "/t/gtk.css"
      (some (⟨1, 1⟩, 100)) (some (some "#000000", none, none)) "Foo"
      "/t/gtk.css" (some (⟨1, 1⟩, 100))
      (some (some "#000000", none, none))).1.mpr ⟨rfl, by decide⟩

/-- C1 counterexample: the claim's "mtime+size" keying fails on both
caches — the metadata cache returns the stale cached entry when only the
mtime matches (size changed 100 → 999 and the CSS now extracts a white
background, yet the cached black background is returned without
re-parsing), and a `count = 0` palette entry is stored empty, so an
unchanged signature still re-extracts. -/
theorem caches_keyed_counterexample :
    (get_theme_metadata (get_theme_metadata [] "Foo" "/t/gtk.css"
        (some (⟨1, 1⟩, 100)) (some (some "#000000", none, none))).cache
      "Foo" "/t/gtk.css" (some (⟨1, 1⟩, 999))
      (some (some "#ffffff", none, none))).reparsed = false
    ∧ (get_theme_metadata (get_theme_metadata [] "Foo" "/t/gtk.css"
        (some (⟨1, 1⟩, 100)) (some (some "#000000", none, none))).cache
      "Foo" "/t/gtk.css" (some (⟨1, 1⟩, 999))
      (some (some "#ffffff", none, none))).meta.bg = "#000000"
    ∧ (extract_palette (extract_palette emptyPaletteCache "/w.png" (5, 7) 0
        none).state "/w.png" (5, 7) 0 none).extracted = true := by
  refine ⟨by decide, by decide, by decide⟩

theorem foldl_preserve {α β : Type} (P : α → Prop) (f : α → β → α)
    (hf : ∀ acc x, P acc → P (f acc x)) :
    ∀ (l : List β) (acc : α), P acc → P (l.foldl f acc) := by
  intro l
  induction l with
  | nil => exact fun acc h => h
  | cons x xs ih => exact fun acc h => ih (f acc x) (hf acc x h)

theorem bumpFreq_mem (freq : List (RGB × Nat)) (key : RGB) :
    ∀ kv ∈ bumpFreq freq key, kv ∈ freq ∨ kv.1 = key := by
  induction freq with
  | nil =>
    intro kv hkv
    simp [bumpFreq] at hkv
    right
    rw [hkv]
  | cons hd tl ih =>
    obtain ⟨k, c⟩ := hd
    intro kv hkv
    by_cases h : k = key
    · subst h
      simp only [bumpFreq, if_pos rfl] at hkv
      rcases List.mem_cons.mp hkv with h1 | h1
      · right
        rw [h1]
      · exact Or.inl (List.mem_cons_of_mem _ h1)
    · simp only [bumpFreq, if_neg h] at hkv
      rcases List.mem_cons.mp hkv with h1 | h1
      · exact Or.inl (h1 ▸ List.mem_cons_self _ _)
      · rcases ih kv h1 with h2 | h2
        · exact Or.inl (List.mem_cons_of_mem _ h2)
        · exact Or.inr h2

theorem sampledFreq_quantized (img : PixImage) :
    ∀ kv ∈ sampledFreq img,
      kv.1.1 % 24 = 0 ∧ kv.1.2.1 % 24 = 0 ∧ kv.1.2.2 % 24 = 0 := by
  unfold sampledFreq
  refine foldl_preserve
    (fun l : List (RGB × Nat) =>
      ∀ kv ∈ l, kv.1.1 % 24 = 0 ∧ kv.1.2.1 % 24 = 0 ∧ kv.1.2.2 % 24 = 0)
    _ ?_ _ [] (by intro kv h; cases h)
  intro acc y hacc
  refine foldl_preserve
    (fun l : List (RGB × Nat) =>
      ∀ kv ∈ l, kv.1.1 % 24 = 0 ∧ kv.1.2.1 % 24 = 0 ∧ kv.1.2.2 % 24 = 0)
    _ ?_ _ acc hacc
  intro acc2 x hacc2
  by_cases hskip : img.nChannels = 4 ∧
      (img.data (y * img.rowstride + x * img.nChannels + 3)).val < 20
  · simp only [if_pos hskip]
    exact hacc2
  · simp only [if_neg hskip]
    intro kv hkv
    rcases bumpFreq_mem _ _ kv hkv with h | h
    · exact hacc2 kv h
    · rw [h]
      exact ⟨Nat.mul_mod_left _ _, Nat.mul_mod_left _ _, Nat.mul_mod_left _ _⟩

theorem insertRanked_mem (x : RGB × Nat) (l : List (RGB × Nat)) :
    ∀ z ∈ insertRanked x l, z = x ∨ z ∈ l := by
  induction l with
  | nil =>
    intro z hz
    simp [insertRanked] at hz
    exact Or.inl hz
  | cons y ys ih =>
    intro z hz
    by_cases h : y.2 < x.2
    · simp only [insertRanked, if_pos h] at hz
      rcases List.mem_cons.mp hz with h1 | h1
      · exact Or.inl h1
      · exact Or.inr h1
    · simp only [insertRanked, if_neg h] at hz
      rcases List.mem_cons.mp hz with h1 | h1
      · exact Or.inr (h1 ▸ List.mem_cons_self _ _)
      · rcases ih z h1 with h2 | h2
        · exact Or.inl h2
        · exact Or.inr (List.mem_cons_of_mem _ h2)

theorem insertRanked_sorted (x : RGB × Nat) (l : List (RGB × Nat))
    (h : l.Pairwise (fun a b => b.2 ≤ a.2)) :
    (insertRanked x l).Pairwise (fun a b => b.2 ≤ a.2) := by
  induction l with
  | nil => simp [insertRanked]
  | cons y ys ih =>
    rcases List.pairwise_cons.mp h with ⟨hy, hys⟩
    by_cases hlt : y.2 < x.2
    · simp only [insertRanked, if_pos hlt]
      refine List.pairwise_cons.mpr ⟨?_, h⟩
      intro z hz
      rcases List.mem_cons.mp hz with h1 | h1
      · rw [h1]
        exact le_of_lt hlt
      · exact le_trans (hy z h1) (le_of_lt hlt)
    · simp only [insertRanked, if_neg hlt]
      refine List.pairwise_cons.mpr ⟨?_, ih hys⟩
      intro z hz
      rcases insertRanked_mem x ys z hz with h1 | h1
      · rw [h1]
        exact le_of_not_lt hlt
      · exact hy z h1

theorem insertRanked_perm (x : RGB × Nat) (l : List (RGB × Nat)) :
    (insertRanked x l).Perm (x :: l) := by
  induction l with
  | nil => simp [insertRanked]
  | cons y ys ih =>
    by_cases h : y.2 < x.2
    · simp [insertRanked, if_pos h]
    · simp only [insertRanked, if_neg h]
      exact (List.Perm.cons y ih).trans (List.Perm.swap x y ys)

theorem rankFreq_fold_perm :
    ∀ (l acc : List (RGB × Nat)),
      (l.foldl (fun acc kv => insertRanked kv acc) acc).Perm (l ++ acc) := by
  intro l
  induction l with
  | nil => intro acc; simp
  | cons x xs ih =>
    intro acc
    have h1 := ih (insertRanked x acc)
    have h2 : (xs ++ insertRanked x acc).Perm (xs ++ (x :: acc)) :=
      List.Perm.append_left xs (insertRanked_perm x acc)
    have h3 : (xs ++ (x :: acc)).Perm (x :: (xs ++ acc)) := List.perm_middle
    simpa using (h1.trans h2).trans h3

theorem rankFreq_perm (freq : List (RGB × Nat)) : (rankFreq freq).Perm freq := by
  have h := rankFreq_fold_perm freq []
  simpa [rankFreq] using h

theorem rankFreq_sorted (freq : List (RGB × Nat)) :
    (rankFreq freq).Pairwise (fun a b => b.2 ≤ a.2) := by
  unfold rankFreq
  exact foldl_preserve (fun l => l.Pairwise (fun a b => b.2 ≤ a.2)) _
    (fun acc kv h => insertRanked_sorted kv acc h) _ [] (by simp)

theorem color_distance_sq_comm (a b : RGB) :
    color_distance_sq a b = color_distance_sq b a := by
  unfold color_distance_sq
  ring

theorem pick_step_mem (picked : List RGB) (c : RGB) :
    ∀ z ∈ pick_step picked c, z ∈ picked ∨ z = c := by
  intro z hz
  unfold pick_step at hz
  split at hz
  · rcases List.mem_append.mp hz with h1 | h1
    · exact Or.inl h1
    · exact Or.inr (List.mem_singleton.mp h1)
  · exact Or.inl hz

theorem pick_step_pairwise (picked : List RGB) (c : RGB)
    (h : picked.Pairwise (fun a b => 900 ≤ color_distance_sq b a)) :
    (pick_step picked c).Pairwise (fun a b => 900 ≤ color_distance_sq b a) := by
  unfold pick_step
  split
  · rename_i hall
    refine List.pairwise_append.mpr ⟨h, by simp, ?_⟩
    intro a ha b hb
    rw [List.mem_singleton.mp hb]
    exact of_decide_eq_true (List.all_eq_true.mp hall a ha)
  · exact h

theorem pick_step_length (picked : List RGB) (c : RGB) :
    (pick_step picked c).length ≤ picked.length + 1 := by
  unfold pick_step
  split <;> simp

theorem pick_colors_subset (count : Int) :
    ∀ (rest picked : List RGB) (c : RGB),
      c ∈ pick_colors count picked rest → c ∈ picked ∨ c ∈ rest := by
  intro rest
  induction rest with
  | nil => exact fun picked c h => Or.inl h
  | cons x xs ih =>
    intro picked c h
    simp only [pick_colors] at h
    split at h
    · rcases pick_step_mem picked x c h with h1 | h1
      · exact Or.inl h1
      · exact Or.inr (h1 ▸ List.mem_cons_self _ _)
    · rcases ih (pick_step picked x) c h with h1 | h1
      · rcases pick_step_mem picked x c h1 with h2 | h2
        · exact Or.inl h2
        · exact Or.inr (h2 ▸ List.mem_cons_self _ _)
      · exact Or.inr (List.mem_cons_of_mem _ h1)

theorem pick_colors_pairwise (count : Int) :
    ∀ (rest picked : List RGB),
      picked.Pairwise (fun a b => 900 ≤ color_distance_sq b a) →
      (pick_colors count picked rest).Pairwise
        (fun a b => 900 ≤ color_distance_sq b a) := by
  intro rest
  induction rest with
  | nil => exact fun picked h => h
  | cons x xs ih =>
    intro picked h
    simp only [pick_colors]
    split
    · exact pick_step_pairwise picked x h
    · exact ih _ (pick_step_pairwise picked x h)

theorem pick_colors_length (count : Int) :
    ∀ (rest picked : List RGB), (picked.length : Int) < count →
      ((pick_colors count picked rest).length : Int) ≤ count := by
  intro rest
  induction rest with
  | nil => exact fun picked h => le_of_lt h
  | cons x xs ih =>
    intro picked h
    have hlen := pick_step_length picked x
    simp only [pick_colors]
    split
    · omega
    · rename_i hstop
      exact ih _ (by omega)

/-! ## C4: the palette extraction algorithm -/

/-- C4 (amended): given the downscaled pixel buffer, `extract_palette`
quantizes each sampled RGB channel down to a multiple of 24, ranks the
quantized colors by sampled frequency in descending order (the ranking is
a permutation of the frequency table), and greedily picks at most `count`
colors pairwise at squared distance ≥ 900 (i.e. Euclidean distance ≥ 30),
every picked color being one of the sampled quantized colors; when
extraction yields no colors the result falls back to the fixed default
palette — truncated to `count` entries, the full five-color list only for
`count ≥ 5` (see the counterexample). -/
theorem extract_palette_algorithm (img : PixImage) (count : Int) :
    (1 ≤ count → ((pickedOf img count).length : Int) ≤ count)
    ∧ (pickedOf img count).Pairwise (fun a b => 900 ≤ color_distance_sq a b)
    ∧ (∀ c ∈ pickedOf img count, c ∈ (sampledFreq img).map (·.1))
    ∧ (∀ kv ∈ sampledFreq img,
        kv.1.1 % 24 = 0 ∧ kv.1.2.1 % 24 = 0 ∧ kv.1.2.2 % 24 = 0)
    ∧ (rankFreq (sampledFreq img)).Pairwise (fun a b => b.2 ≤ a.2)
    ∧ (rankFreq (sampledFreq img)).Perm (sampledFreq img)
    ∧ extracted_colors img count = (pickedOf img count).map rgbToHexStr
    ∧ fresh_palette none count = pySliceTo count default_palette
    ∧ (extracted_colors img count = [] →
        fresh_palette (some img) count = pySliceTo count default_palette) := by
  refine ⟨?_, ?_, ?_, sampledFreq_quantized img, rankFreq_sorted _,
    rankFreq_perm _, rfl, rfl, ?_⟩
  · intro h
    exact pick_colors_length count _ [] (by simpa using h)
  · have h := pick_colors_pairwise count
      ((rankFreq (sampledFreq img)).map (·.1)) [] (by simp)
    exact h.imp (fun {a b} hab => (color_distance_sq_comm b a) ▸ hab)
  · intro c hc
    rcases pick_colors_subset count _ [] c hc with h | h
    · cases h
    · have hperm := (rankFreq_perm (sampledFreq img)).map (·.1)
      exact hperm.mem_iff.mp h
  · intro hempty
    simp [fresh_palette, hempty]

/-- C4 witness: on a concrete pixel buffer with `count = 5`, the greedy
pick returns at most five colors. -/
theorem extract_palette_algorithm_witness :
    ((pickedOf samplePix 5).length : Int) ≤ 5 :=
  (extract_palette_algorithm samplePix 5).1 (by decide)

/-- C4 counterexample: when extraction yields no colors (here: the image
load failed) and `count = 3`, the returned palette is the default list
truncated to three colors, not the claimed fixed five-color palette. -/
theorem default_palette_truncated_counterexample :
    fresh_palette none 3 = ["#4c566a", "#5e81ac", "#88c0d0"]
    ∧ fresh_palette none 3 ≠ default_palette := by
  exact ⟨rfl, by decide⟩

theorem startsWithHash_hash_append (s : String) :
    startsWithHash ("#" ++ s) = true := by
  rcases s with ⟨data⟩
  rfl

theorem normalizeSwatch_shape {c cu : String} (h : normalizeSwatch c = some cu) :
    cu.toList.length = 7 ∧ startsWithHash cu = true := by
  simp only [normalizeSwatch] at h
  by_cases hh : startsWithHash (pyUpper (pyStrip c)) = true
  · rw [if_pos hh] at h
    split at h
    · rename_i hlen
      cases h
      exact ⟨hlen, hh⟩
    · cases h
  · rw [if_neg hh] at h
    split at h
    · rename_i hlen
      cases h
      exact ⟨hlen, startsWithHash_hash_append _⟩
    · cases h

theorem unique_colors_aux_props (lim : Option Nat) :
    ∀ (cs acc : List String),
      acc.Nodup →
      (∀ c ∈ acc, c.toList.length = 7 ∧ startsWithHash c = true) →
      (unique_colors_aux lim acc cs).Nodup
      ∧ (∀ c ∈ unique_colors_aux lim acc cs,
          c.toList.length = 7 ∧ startsWithHash c = true) := by
  intro cs
  induction cs with
  | nil =>
    intro acc hnd hsh
    refine ⟨List.nodup_reverse.mpr hnd, ?_⟩
    intro c hc
    exact hsh c (List.mem_reverse.mp hc)
  | cons c cs ih =>
    intro acc hnd hsh
    rcases hn : normalizeSwatch c with _ | cu
    · simp only [unique_colors_aux, hn]
      exact ih acc hnd hsh
    · simp only [unique_colors_aux, hn]
      by_cases hmem : cu ∈ acc
      · rw [if_pos hmem]
        exact ih acc hnd hsh
      · rw [if_neg hmem]
        have hcu := normalizeSwatch_shape hn
        have hnd2 : (cu :: acc).Nodup := List.nodup_cons.mpr ⟨hmem, hnd⟩
        have hsh2 : ∀ x ∈ cu :: acc, x.toList.length = 7 ∧ startsWithHash x = true := by
          intro x hx
          rcases List.mem_cons.mp hx with h1 | h1
          · rw [h1]; exact hcu
          · exact hsh x h1
        by_cases hlim : uniqueLimitReached (cu :: acc) lim = true
        · rw [if_pos hlim]
          refine ⟨List.nodup_reverse.mpr hnd2, ?_⟩
          intro x hx
          exact hsh2 x (List.mem_reverse.mp hx)
        · rw [if_neg hlim]
          exact ih (cu :: acc) hnd2 hsh2

theorem unique_colors_aux_length (l : Nat) :
    ∀ (cs acc : List String), acc.length < l →
      (unique_colors_aux (some l) acc cs).length ≤ l := by
  intro cs
  induction cs with
  | nil =>
    intro acc h
    simp only [unique_colors_aux, List.length_reverse]
    exact le_of_lt h
  | cons c cs ih =>
    intro acc h
    rcases hn : normalizeSwatch c with _ | cu
    · simp only [unique_colors_aux, hn]
      exact ih acc h
    · simp only [unique_colors_aux, hn]
      by_cases hmem : cu ∈ acc
      · rw [if_pos hmem]
        exact ih acc h
      · rw [if_neg hmem]
        by_cases hlim : uniqueLimitReached (cu :: acc) (some l) = true
        · rw [if_pos hlim]
          have hlen : (cu :: acc).reverse.length = acc.length + 1 := by simp
          omega
        · rw [if_neg hlim]
          refine ih (cu :: acc) ?_
          simp only [uniqueLimitReached, decide_eq_true_eq,
            List.length_cons] at hlim
          simp only [List.length_cons]
          omega

theorem unique_colors_nodup (cs : List String) (lim : Option Nat) :
    (unique_colors cs lim).Nodup :=
  (unique_colors_aux_props lim cs [] (by simp) (by simp)).1

theorem unique_colors_shape (cs : List String) (lim : Option Nat) :
    ∀ c ∈ unique_colors cs lim,
      c.toList.length = 7 ∧ startsWithHash c = true :=
  (unique_colors_aux_props lim cs [] (by simp) (by simp)).2

theorem unique_colors_length (cs : List String) (l : Nat) (hl : 0 < l) :
    (unique_colors cs (some l)).length ≤ l :=
  unique_colors_aux_length l cs [] (by simpa using hl)

/-! ## C6: color-theory swatch generation -/

/-- C6 (amended): the working copy of the color-theory generation
(`_build_color_theory_colors` on the application class — the
`WallpaperService` copy raises `AttributeError`, see the counterexample),
on every base list whose seeds parse as hex, equals the dedup-to-36 of
the per-seed candidates (ten hue offsets under three saturation/value
multiplier pairs with the stated clamps, plus six monochromatic value
steps, per `theoryCandidatesForSeed`); it works from at most 3 unique
seeds, defaulting to `"#5E81AC"` when none are valid, and returns at most
36 distinct well-formed `#RRGGBB` strings. -/
theorem color_theory_swatch_generation (base_colors : List String)
    (h : ∀ c ∈ theorySeeds base_colors, (hex_to_rgb c).isOk = true) :
    build_color_theory_colors base_colors =
      .ok (unique_colors
        ((theorySeeds base_colors).flatMap theoryCandidatesOfHex) (some 36))
    ∧ (∀ out, build_color_theory_colors base_colors = .ok out →
        out.length ≤ 36 ∧ out.Nodup
        ∧ ∀ c ∈ out, c.toList.length = 7 ∧ startsWithHash c = true)
    ∧ (theorySeeds base_colors).length ≤ 3
    ∧ (theorySeeds base_colors).Nodup
    ∧ (unique_colors base_colors (some 3) = [] →
        theorySeeds base_colors = ["#5E81AC"]) := by
  have hmain : build_color_theory_colors base_colors =
      .ok (unique_colors
        ((theorySeeds base_colors).flatMap theoryCandidatesOfHex) (some 36)) := by
    show (List.foldlM theoryStep [] (theorySeeds base_colors)) >>=
      (fun result => pure (unique_colors result (some 36))) = _
    rw [theory_fold_eq (theorySeeds base_colors) h []]
    rfl
  refine ⟨hmain, ?_, ?_, ?_, ?_⟩
  · intro out hout
    rw [hmain] at hout
    cases hout
    exact ⟨unique_colors_length _ 36 (by decide), unique_colors_nodup _ _,
      unique_colors_shape _ _⟩
  · by_cases hu : (unique_colors base_colors (some 3)).isEmpty = true
    · simp [theorySeeds, hu]
    · simp only [theorySeeds, hu, if_false]
      exact unique_colors_length _ 3 (by decide)
  · by_cases hu : (unique_colors base_colors (some 3)).isEmpty = true
    · simp [theorySeeds, hu]
    · simp only [theorySeeds, hu, if_false]
      exact unique_colors_nodup _ _
  · intro he
    simp [theorySeeds, he]

/-- C6 witness: at base `["#112233"]` the seeds parse, the builder
returns the deduplicated candidate list, and at most three seeds are
used. -/
theorem color_theory_swatch_generation_witness :
    build_color_theory_colors ["#112233"] =
      .ok (unique_colors
        ((theorySeeds ["#112233"]).flatMap theoryCandidatesOfHex) (some 36))
    ∧ (theorySeeds ["#112233"]).length ≤ 3 :=
  ⟨(color_theory_swatch_generation ["#112233"] (by decide)).1,
    (color_theory_swatch_generation ["#112233"] (by decide)).2.2.1⟩

/-- C6 counterexample: the claim as stated fails on
`WallpaperService.get_color_theory_colors`, which raises `AttributeError`
for every input; and even the application-level builder raises
`ValueError` on a seed that normalises to 7 characters but has non-hex
pairs, instead of returning swatches. -/
theorem color_theory_swatch_counterexample :
    ws_get_color_theory_colors ["#112233"] = .error .attributeError
    ∧ build_color_theory_colors ["#ZZZZZZ"] = .error .valueError := by
  exact ⟨rfl, rfl⟩

theorem setTextInChildren_length :
    ∀ (cs : List Xml) (i : Nat) (q : List Nat) (t : String),
      (setTextInChildren cs i q t).length = cs.length := by
  intro cs
  induction cs with
  | nil => intro i q t; rfl
  | cons c cs' ih =>
    intro i q t
    rcases i with _ | i
    · rfl
    · show (c :: setTextInChildren cs' i q t).length = (c :: cs').length
      simp [ih cs'.length q t, ih i q t]

theorem getAt_setTextAt_text_ne :
    ∀ (p : List Nat) (x : Xml) (p' : List Nat) (t : String), p' ≠ p →
      (getAt (setTextAt x p t) p').map Xml.textOf =
        (getAt x p').map Xml.textOf := by
  intro p
  induction p with
  | nil =>
    intro x p' t hne
    rcases x with ⟨tg, tx, cs⟩
    rcases p' with _ | ⟨j, q'⟩
    · exact absurd rfl hne
    · rfl
  | cons i q ihq =>
    intro x p' t hne
    rcases x with ⟨tg, tx, cs⟩
    rcases p' with _ | ⟨j, q'⟩
    · rfl
    · have hcond : j = i → q' ≠ q := by
        intro hj hq
        exact hne (by rw [hj, hq])
      show (getInChildren (setTextInChildren cs i q t) j q').map Xml.textOf =
        (getInChildren cs j q').map Xml.textOf
      clear hne
      revert hcond
      induction cs generalizing i j with
      | nil => intro _; rfl
      | cons c cs' ihcs =>
        intro hcond
        rcases i with _ | i
        · rcases j with _ | j
          · exact ihq c q' t (hcond rfl)
          · rfl
        · rcases j with _ | j
          · rfl
          · exact ihcs i j (fun hj => hcond (by rw [hj]))

theorem getAt_setTextAt_text_self :
    ∀ (p : List Nat) (x : Xml) (t : String),
      (getAt (setTextAt x p t) p).map Xml.textOf =
        (getAt x p).map (fun _ => some t) := by
  intro p
  induction p with
  | nil =>
    intro x t
    rcases x with ⟨tg, tx, cs⟩
    rfl
  | cons i q ihq =>
    intro x t
    rcases x with ⟨tg, tx, cs⟩
    show (getInChildren (setTextInChildren cs i q t) i q).map Xml.textOf =
      (getInChildren cs i q).map (fun _ => some t)
    induction cs generalizing i with
    | nil => rfl
    | cons c cs' ihcs =>
      rcases i with _ | i
      · exact ihq c t
      · exact ihcs i

theorem getAt_setTextAt_shape :
    ∀ (p : List Nat) (x : Xml) (p' : List Nat) (t : String),
      (getAt (setTextAt x p t) p').map Xml.tagOf = (getAt x p').map Xml.tagOf
      ∧ (getAt (setTextAt x p t) p').map Xml.childCount =
          (getAt x p').map Xml.childCount := by
  intro p
  induction p with
  | nil =>
    intro x p' t
    rcases x with ⟨tg, tx, cs⟩
    rcases p' with _ | ⟨j, q'⟩
    · exact ⟨rfl, rfl⟩
    · exact ⟨rfl, rfl⟩
  | cons i q ihq =>
    intro x p' t
    rcases x with ⟨tg, tx, cs⟩
    rcases p' with _ | ⟨j, q'⟩
    · refine ⟨rfl, ?_⟩
      show some (setTextInChildren cs i q t).length = some cs.length
      rw [setTextInChildren_length]
    · show (getInChildren (setTextInChildren cs i q t) j q').map Xml.tagOf =
          (getInChildren cs j q').map Xml.tagOf
        ∧ (getInChildren (setTextInChildren cs i q t) j q').map Xml.childCount =
          (getInChildren cs j q').map Xml.childCount
      induction cs generalizing i j with
      | nil => exact ⟨rfl, rfl⟩
      | cons c cs' ihcs =>
        rcases i with _ | i
        · rcases j with _ | j
          · exact ihq c q' t
          · exact ⟨rfl, rfl⟩
        · rcases j with _ | j
          · exact ⟨rfl, rfl⟩
          · exact ihcs i j

/-! ## C8: Openbox window-theme application -/

/-- C8 (amended): `WindowThemeService.apply_theme` returns a failure and
leaves rc.xml unchanged whenever rc.xml is missing, the theme is not among
the discovered themes, or no `<theme><name>` element is found; otherwise
it rewrites only that element's text to the requested name — every other
node keeps its tag, child count, and text — writes the file back, and
returns `(True, ...)` provided launching `openbox --reconfigure` does not
itself raise; when that launch raises (e.g. the binary is absent) it
returns `(False, ...)` with the file already rewritten (see the
counterexample). -/
theorem window_apply_theme_validations
    (file : RcXmlFile) (available : List String) (theme_name : String)
    (ob : GsOutcome) :
    (file = .missing →
      window_apply_theme file available theme_name ob =
        ⟨false, "Openbox configuration file not found.", .missing⟩)
    ∧ (theme_name ∉ available →
        (window_apply_theme file available theme_name ob).ok = false
        ∧ (window_apply_theme file available theme_name ob).file = file)
    ∧ (∀ root, file = .parsed root → theme_name ∈ available →
        findThemePath root = none →
        window_apply_theme file available theme_name ob =
          ⟨false, "Could not find <theme><name> in rc.xml", .parsed root⟩)
    ∧ (∀ root p, file = .parsed root → theme_name ∈ available →
        findThemePath root = some p →
        (window_apply_theme file available theme_name ob).file =
          .parsed (setTextAt root p theme_name)
        ∧ ((∃ rc err, ob = .ran rc err) →
            (window_apply_theme file available theme_name ob).ok = true)
        ∧ (∀ msg, ob = .raised msg →
            (window_apply_theme file available theme_name ob).ok = false)
        ∧ (getAt (setTextAt root p theme_name) p).map Xml.textOf =
            (getAt root p).map (fun _ => some theme_name)
        ∧ (∀ p', p' ≠ p →
            (getAt (setTextAt root p theme_name) p').map Xml.textOf =
              (getAt root p').map Xml.textOf)
        ∧ (∀ p',
            (getAt (setTextAt root p theme_name) p').map Xml.tagOf =
              (getAt root p').map Xml.tagOf
            ∧ (getAt (setTextAt root p theme_name) p').map Xml.childCount =
              (getAt root p').map Xml.childCount)) := by
  refine ⟨?_, ?_, ?_, ?_⟩
  · rintro rfl
    rfl
  · intro h
    rcases file with _ | _ | root
    · exact ⟨rfl, rfl⟩
    · simp [window_apply_theme, h]
    · simp [window_apply_theme, h]
  · rintro root rfl hmem hfind
    simp [window_apply_theme, hmem, hfind]
  · rintro root p rfl hmem hfind
    refine ⟨?_, ?_, ?_, getAt_setTextAt_text_self p root theme_name,
      fun p' hp' => getAt_setTextAt_text_ne p root p' theme_name hp',
      fun p' => getAt_setTextAt_shape p root p' theme_name⟩
    · rcases ob with ⟨rc, err⟩ | msg <;> simp [window_apply_theme, hmem, hfind]
    · rintro ⟨rc, err, rfl⟩
      simp [window_apply_theme, hmem, hfind]
    · rintro msg rfl
      simp [window_apply_theme, hmem, hfind]

/-- C8 witness: on a concrete rc.xml, applying an available theme with a
clean `openbox --reconfigure` run succeeds, and an absent theme is
rejected. -/
theorem window_apply_theme_witness :
    (window_apply_theme (.parsed sampleRcXml) ["Onyx", "Clearlooks"]
        "Clearlooks" (.ran 0 "")).ok = true
    ∧ (window_apply_theme (.parsed sampleRcXml) ["Onyx"] "Absent"
        (.ran 0 "")).ok = false := by
  constructor
  · exact ((window_apply_theme_validations (.parsed sampleRcXml)
      ["Onyx", "Clearlooks"] "Clearlooks" (.ran 0 "")).2.2.2 sampleRcXml [1, 1]
      rfl (by decide) rfl).2.1 ⟨0, "", rfl⟩
  · exact ((window_apply_theme_validations (.parsed sampleRcXml) ["Onyx"]
      "Absent" (.ran 0 "")).2.1 (by decide)).1

/-- C8 counterexample: with rc.xml present, the theme available, and the
`<theme><name>` node found, a raising `openbox --reconfigure` launch
(binary absent) makes `apply_theme` return `False` even though rc.xml has
already been rewritten — the claim's "otherwise ... returns (True, ...)"
fails, and the failure is not atomic. -/
theorem window_apply_theme_counterexample :
    (window_apply_theme (.parsed sampleRcXml) ["Onyx", "Clearlooks"]
        "Clearlooks" (.raised "FileNotFoundError: openbox")).ok = false
    ∧ (window_apply_theme (.parsed sampleRcXml) ["Onyx", "Clearlooks"]
        "Clearlooks" (.raised "FileNotFoundError: openbox")).file =
      .parsed (setTextAt sampleRcXml [1, 1] "Clearlooks")
    ∧ (getAt (setTextAt sampleRcXml [1, 1] "Clearlooks") [1, 1]).map Xml.textOf
      = some (some "Clearlooks")
    ∧ (getAt sampleRcXml [1, 1]).map Xml.textOf = some (some "Onyx") := by
  exact ⟨rfl, rfl, rfl, rfl⟩
